import Mathlib

/-!
Shallow embedding of `scripts/troubleshooting.py` (network drift-detection and
OSPF-neighbor remediation engine) and proofs about the specification's claims.

Python strings are modelled as `List Char` (Python `str` is a sequence of code
points).  Python's str methods (`strip`, `split`, `splitlines`, `startswith`,
the `in` operator, `int()`) are modelled as executable functions below.
Fallible Python code (code that can raise) is modelled with `Except`.
-/

namespace Troubleshooting

/-- Python strings: sequences of characters. -/
abbrev Str := List Char

/-- Whitespace characters recognised by Python's `str.strip()` / `str.split()`. -/
def isSpace (c : Char) : Bool :=
  c = ' ' || c = '\t' || c = '\n' || c = '\r' || c = '\x0b' || c = '\x0c'

/-- Model of Python `str.strip()` (no arguments): drop whitespace at both ends. -/
def pyStrip (s : Str) : Str :=
  ((s.dropWhile isSpace).reverse.dropWhile isSpace).reverse

/-- Split a string at every character satisfying `p`, keeping empty pieces
(the helper underlying `str.split(sep)` for one-character separators and
`str.split()` after filtering). -/
def splitAtPred (p : Char → Bool) : Str → List Str
  | [] => [[]]
  | c :: rest =>
    if p c then [] :: splitAtPred p rest
    else
      match splitAtPred p rest with
      | [] => [[c]]
      | w :: ws => (c :: w) :: ws

/-- Model of Python `str.split()` with no argument: split on whitespace runs,
discarding empty fields. -/
def pySplitWs (s : Str) : List Str :=
  (splitAtPred isSpace s).filter (fun w => w ≠ [])

/-- Model of Python `str.splitlines()` for `\n`-separated text: split at every
newline; a single trailing line terminator does not produce a final empty line. -/
def pyLines (s : Str) : List Str :=
  match splitAtPred (fun c => c = '\n') s with
  | [] => []
  | parts => if parts.getLast? = some [] then parts.dropLast else parts

/-- Helper for `splitOnSep`: split at every occurrence of the (non-empty)
separator `c0 :: srest`, keeping empty pieces, like Python `str.split(sep)`.
Structural recursion on a character-count fuel (always called with enough
fuel; each step consumes at least one character). -/
def splitOnSepF (c0 : Char) (srest : Str) : Nat → Str → List Str
  | _, [] => [[]]
  | 0, s => [s]
  | fuel + 1, c :: rest =>
    if (c0 :: srest).isPrefixOf (c :: rest) then
      [] :: splitOnSepF c0 srest fuel (rest.drop srest.length)
    else
      match splitOnSepF c0 srest fuel rest with
      | [] => [[c]]
      | w :: ws => (c :: w) :: ws

/-- Model of Python `str.split(sep)` for a non-empty separator string.
(Python raises on an empty separator; that case is never used by the code.) -/
def splitOnSep (sep s : Str) : List Str :=
  match sep with
  | [] => [s]
  | c0 :: srest => splitOnSepF c0 srest s.length s

/-- Model of the Python substring test `pat in s`. -/
def occursIn (pat : Str) : Str → Bool
  | [] => pat.isEmpty
  | c :: rest => pat.isPrefixOf (c :: rest) || occursIn pat rest

/-- Model of Python `s.startswith(pat)`. -/
def pyStartsWith (s pat : Str) : Bool := pat.isPrefixOf s

/-- Model of Python `"\n".join(lines)`. -/
def joinLines (ls : List Str) : Str := (ls.intersperse ['\n']).flatten

/-- Decimal digit character for a digit value (used by the decimal printer). -/
def digitChar (d : Nat) : Char :=
  if d = 0 then '0' else if d = 1 then '1' else if d = 2 then '2'
  else if d = 3 then '3' else if d = 4 then '4' else if d = 5 then '5'
  else if d = 6 then '6' else if d = 7 then '7' else if d = 8 then '8' else '9'

/-- Decimal printer for naturals, on a digit-count fuel (always called with
`n < fuel`, which each division step preserves). -/
def natReprF : Nat → Nat → Str → Str
  | 0, _, acc => acc
  | fuel + 1, n, acc =>
    if n < 10 then digitChar n :: acc
    else natReprF fuel (n / 10) (digitChar (n % 10) :: acc)

/-- Decimal representation of a natural number, as a `Str` (used to build
concrete device outputs and the unified-diff hunk headers). -/
def natRepr (n : Nat) : Str := natReprF (n + 1) n []

/-- Numeric value of a digit character. -/
def digitVal (c : Char) : Nat := c.toNat - '0'.toNat

/-- Parse a non-empty all-digit string as a natural number. -/
def digitsToNat (ds : Str) : Option Nat :=
  if ds ≠ [] ∧ ds.all Char.isDigit then
    some (ds.foldl (fun n c => n * 10 + digitVal c) 0)
  else none

/-- Model of Python `int()` on decimal string input: optional surrounding
whitespace, an optional sign, then decimal digits; `none` models the
`ValueError` raised on anything else.  (Underscore digit grouping, which the
device outputs never contain, is not modelled.) -/
def pyInt (s : Str) : Option Int :=
  match pyStrip s with
  | [] => none
  | c :: ds =>
    if c = '-' then (digitsToNat ds).map (fun n => -(n : Int))
    else if c = '+' then (digitsToNat ds).map (fun n => (n : Int))
    else (digitsToNat (c :: ds)).map (fun n => (n : Int))

/-! ### Config normalizer and diff engine (`normalize_config`, `compare_configs`) -/

/-- `normalize_config` (troubleshooting.py:11): strip every line, drop lines
that are empty after stripping. -/
def normalize_config (config : Str) : List Str :=
  ((pyLines config).map pyStrip).filter (fun line => line ≠ [])

/-- Tag of one line of a line-oriented diff. -/
inductive DTag where
  | unchanged
  | added
  | removed
deriving DecidableEq, Repr

/-- One tagged line of a full line-oriented diff. -/
structure DLine where
  tag : DTag
  text : Str
deriving DecidableEq, Repr

/-- Length of a longest common subsequence of two line sequences, on a fuel
that is adequate whenever it is at least the total number of lines. -/
def lcsLenF : Nat → List Str → List Str → Nat
  | _, [], _ => 0
  | _, _ :: _, [] => 0
  | 0, _ :: _, _ :: _ => 0
  | fuel + 1, a :: as, b :: bs =>
    if a = b then 1 + lcsLenF fuel as bs
    else max (lcsLenF fuel as (b :: bs)) (lcsLenF fuel (a :: as) bs)

/-- Length of a longest common subsequence of two line sequences. -/
def lcsLen (a b : List Str) : Nat := lcsLenF (a.length + b.length) a b

/-- Modelled from the spec: the full line-tagged longest-common-subsequence
diff underlying `difflib.unified_diff` (library code external to this
repository; spec 4.2: "a longest-common-subsequence-based line diff
(unified-diff semantics) treating golden as the from side and live as the to
side").  Every golden line appears tagged `unchanged` or `removed`, every live
line `unchanged` or `added`, in order.  Structural recursion on a fuel that
each step consumes one unit of; the fuel in the wrapper `diffTagged` is the
total number of lines, which is always adequate (the fuel-0 fallback is never
reached from `diffTagged`). -/
def diffTaggedF : Nat → List Str → List Str → List DLine
  | 0, a, b => a.map (fun t => ⟨.removed, t⟩) ++ b.map (fun t => ⟨.added, t⟩)
  | _ + 1, [], [] => []
  | fuel + 1, [], b :: bs => ⟨.added, b⟩ :: diffTaggedF fuel [] bs
  | fuel + 1, a :: as, [] => ⟨.removed, a⟩ :: diffTaggedF fuel as []
  | fuel + 1, a :: as, b :: bs =>
    if a = b then ⟨.unchanged, a⟩ :: diffTaggedF fuel as bs
    else if lcsLenF fuel (a :: as) bs ≤ lcsLenF fuel as (b :: bs) then
      ⟨.removed, a⟩ :: diffTaggedF fuel as (b :: bs)
    else
      ⟨.added, b⟩ :: diffTaggedF fuel (a :: as) bs

/-- The full line-tagged LCS diff (see `diffTaggedF`). -/
def diffTagged (a b : List Str) : List DLine :=
  diffTaggedF (a.length + b.length) a b

/-- Lines of a tagged diff not tagged `removed`, in order (claim C1's
reconstruction of the live side). -/
def toLive (d : List DLine) : List Str :=
  (d.filter (fun l => l.tag ≠ DTag.removed)).map (fun l => l.text)

/-- Lines of a tagged diff not tagged `added`, in order (claim C1's
reconstruction of the golden side). -/
def toGolden (d : List DLine) : List Str :=
  (d.filter (fun l => l.tag ≠ DTag.added)).map (fun l => l.text)

/-- Opcode tags of `difflib.SequenceMatcher.get_opcodes`. -/
inductive OTag where
  | equal
  | replace
  | delete
  | insert
deriving DecidableEq, Repr

/-- One opcode: a tag plus half-open index ranges into the golden (`i1`,`i2`)
and live (`j1`,`j2`) line sequences, as in `difflib`. -/
structure Opcode where
  tag : OTag
  i1 : Nat
  i2 : Nat
  j1 : Nat
  j2 : Nat
deriving DecidableEq, Repr

/-- Whether a tagged diff line is an unchanged (context) line. -/
def isUnch (d : DLine) : Bool := d.tag = DTag.unchanged

/-- Helper for `splitRuns`: `cur` is the current run, reversed; `cls` its
class (context or changed). -/
def splitRunsAux (cur : List DLine) (cls : Bool) : List DLine → List (List DLine)
  | [] => [cur.reverse]
  | d :: rest =>
    if isUnch d = cls then splitRunsAux (d :: cur) cls rest
    else cur.reverse :: splitRunsAux [d] (isUnch d) rest

/-- Split a tagged diff into maximal runs of context lines and of changed
lines. -/
def splitRuns : List DLine → List (List DLine)
  | [] => []
  | d :: rest => splitRunsAux [d] (isUnch d) rest

/-- Opcode for one homogeneous run starting at golden index `i`, live index
`j`: an all-context run is `equal`; a changed run covers its removed lines on
the golden side and its added lines on the live side. -/
def runOpcode (i j : Nat) (run : List DLine) : Opcode :=
  let k := (run.filter (fun d => d.tag ≠ DTag.added)).length
  let m := (run.filter (fun d => d.tag ≠ DTag.removed)).length
  let tag : OTag :=
    if run.all isUnch then .equal
    else if k = 0 then .insert
    else if m = 0 then .delete
    else .replace
  ⟨tag, i, i + k, j, j + m⟩

/-- Opcodes of a list of runs, threading the golden/live positions. -/
def opcodesAux : Nat → Nat → List (List DLine) → List Opcode
  | _, _, [] => []
  | i, j, run :: rest =>
    let op := runOpcode i j run
    op :: opcodesAux op.i2 op.j2 rest

/-- Model of `difflib.SequenceMatcher.get_opcodes` over the tagged diff. -/
def get_opcodes (td : List DLine) : List Opcode := opcodesAux 0 0 (splitRuns td)

/-- Trim an `equal` opcode to its last `n` lines (difflib's leading-context
fixup). -/
def trimHead (n : Nat) (c : Opcode) : Opcode :=
  { c with i1 := max c.i1 (c.i2 - n), j1 := max c.j1 (c.j2 - n) }

/-- Trim an `equal` opcode to its first `n` lines (difflib's trailing-context
fixup). -/
def trimTail (n : Nat) (c : Opcode) : Opcode :=
  { c with i2 := min c.i2 (c.i1 + n), j2 := min c.j2 (c.j1 + n) }

/-- Apply `f` to the head of a list, if any. -/
def mapHead (f : α → α) : List α → List α
  | [] => []
  | a :: r => f a :: r

/-- Apply `f` to the last element of a list, if any. -/
def mapLast (f : α → α) : List α → List α
  | [] => []
  | [a] => [f a]
  | a :: b :: r => a :: mapLast f (b :: r)

/-- The grouping loop of `difflib.SequenceMatcher.get_grouped_opcodes` with
context `n = 3`: an interior `equal` run longer than `2n` lines ends the
current hunk (keeping `n` context lines) and begins the next; a final group
consisting of a single `equal` opcode is not emitted. -/
def groupWalk : List Opcode → List Opcode → List (List Opcode)
  | [], group =>
    match group with
    | [] => []
    | [g] => if g.tag = OTag.equal then [] else [[g]]
    | _ :: _ :: _ => [group]
  | c :: rest, group =>
    if c.tag = OTag.equal ∧ c.i2 - c.i1 > 6 then
      (group ++ [trimTail 3 c]) :: groupWalk rest [trimHead 3 c]
    else
      groupWalk rest (group ++ [c])

/-- Model of `difflib.SequenceMatcher.get_grouped_opcodes(3)`: fix up leading
and trailing `equal` opcodes to at most 3 context lines, then group. -/
def get_grouped_opcodes (codes : List Opcode) : List (List Opcode) :=
  let cs := if codes = [] then [⟨.equal, 0, 1, 0, 1⟩] else codes
  let cs := mapHead (fun c => if c.tag = OTag.equal then trimHead 3 c else c) cs
  let cs := mapLast (fun c => if c.tag = OTag.equal then trimTail 3 c else c) cs
  groupWalk cs []

/-- Model of `difflib._format_range_unified`. -/
def formatRangeUnified (start stop : Nat) : Str :=
  let len := stop - start
  if len = 1 then natRepr (start + 1)
  else natRepr (if len = 0 then start else start + 1) ++ [','] ++ natRepr len

/-- Python slice `l[i1:i2]`. -/
def sliceL (l : List Str) (i1 i2 : Nat) : List Str := (l.take i2).drop i1

/-- Render one opcode of a hunk as unified-diff lines, as in
`difflib.unified_diff`. -/
def renderOpcode (a b : List Str) (c : Opcode) : List Str :=
  match c.tag with
  | .equal => (sliceL a c.i1 c.i2).map (fun line => ' ' :: line)
  | .replace =>
    (sliceL a c.i1 c.i2).map (fun line => '-' :: line) ++
      (sliceL b c.j1 c.j2).map (fun line => '+' :: line)
  | .delete => (sliceL a c.i1 c.i2).map (fun line => '-' :: line)
  | .insert => (sliceL b c.j1 c.j2).map (fun line => '+' :: line)

/-- Render one hunk: the `@@`-header line, then the rendered opcodes. -/
def renderGroup (a b : List Str) (g : List Opcode) : List Str :=
  match g with
  | [] => []
  | first :: _ =>
    let lastc := g.getLastD first
    ("@@ -".data ++ formatRangeUnified first.i1 lastc.i2 ++ " +".data ++
        formatRangeUnified first.j1 lastc.j2 ++ " @@".data) ::
      (g.map (renderOpcode a b)).flatten

/-- Modelled from the spec: `difflib.unified_diff(golden, live,
fromfile="Golden Config", tofile="Current Config", lineterm="")` as called at
troubleshooting.py:64 (`difflib` is Python library code external to this
repository).  Produces the file-header lines followed by context-trimmed
hunks; equal inputs produce no output at all. -/
def unified_diff (a b : List Str) : List Str :=
  match get_grouped_opcodes (get_opcodes (diffTagged a b)) with
  | [] => []
  | groups =>
    ("--- Golden Config".data) :: ("+++ Current Config".data) ::
      (groups.map (renderGroup a b)).flatten

/-! ### Rollback command derivation (`parse_contextual_commands`) -/

/-- One step of the `parse_contextual_commands` loop (troubleshooting.py:26):
state is (commands so far, current context). -/
def pccStep (st : List (Option Str × Str) × Option Str) (line : Str) :
    List (Option Str × Str) × Option Str :=
  let (cmds, ctx) := st
  if pyStartsWith line ("+".data) && !pyStartsWith line ("+++".data) then
    let command := pyStrip (line.drop 1)
    if command ≠ [] && !pyStartsWith command ("!".data) then
      (cmds ++ [(ctx, ("no ".data) ++ command)], ctx)
    else (cmds, ctx)
  else if !pyStartsWith line ("-".data) && !pyStartsWith line ("@".data) &&
      !pyStartsWith line ("+".data) then
    let stripped := pyStrip line
    if pyStartsWith stripped ("interface".data) || pyStartsWith stripped ("router".data) then
      (cmds, some stripped)
    else (cmds, ctx)
  else st

/-- `parse_contextual_commands` (troubleshooting.py:18): derive contextual
negation commands from unified-diff lines. -/
def parse_contextual_commands (diff_lines : List Str) : List (Option Str × Str) :=
  (diff_lines.foldl pccStep ([], none)).1

/-- Whether a diff line sets the current context in
`parse_contextual_commands`: it must survive the `-`/`@`/`+` guards and its
stripped text must start with `interface` or `router`. -/
def isCtxSetter (line : Str) : Bool :=
  (!pyStartsWith line ("-".data) && !pyStartsWith line ("@".data) &&
    !pyStartsWith line ("+".data)) &&
  (pyStartsWith (pyStrip line) ("interface".data) ||
    pyStartsWith (pyStrip line) ("router".data))

/-! ### Device session actions -/

/-- One observable device-session side effect (spec 6's Device Session
capability), plus the diff-report file write and the settle wait. -/
inductive Action where
  | sendCommand (c : Str)
  | sendConfigSet (lines : List Str)
  | enable
  | sendConfigFromFile
  | writeDiffFile
  | wait (n : Nat)
deriving DecidableEq, Repr

/-- The config-set payloads of a trace. -/
def configSetsOf (tr : List Action) : List (List Str) :=
  tr.filterMap (fun a => match a with
    | .sendConfigSet ls => some ls
    | _ => none)

/-- Result of one `compare_configs` run. -/
inductive CCResult where
  | skippedNoGolden
  | compliant
  | remediated
deriving DecidableEq, Repr

/-- `compare_configs` (troubleshooting.py:44), with the golden file's content
passed as `golden` (`none` models a missing golden file) and the session
side effects returned as a trace.  The diff text is empty iff no drift:
then the device is reported compliant and no session command is issued. -/
def compare_configs_model (current_config : Str) (golden : Option Str) :
    CCResult × List Action :=
  match golden with
  | none => (.skippedNoGolden, [])
  | some golden_config =>
    let diff := unified_diff (normalize_config golden_config) (normalize_config current_config)
    if joinLines diff ≠ [] then
      let contextual := parse_contextual_commands diff
      let acts :=
        Action.writeDiffFile ::
        ((if contextual ≠ [] then
            Action.enable ::
              contextual.map (fun cc =>
                match cc.1 with
                | some c => Action.sendConfigSet [c, cc.2]
                | none => Action.sendConfigSet [cc.2])
          else []) ++ [Action.sendConfigFromFile])
      (.remediated, acts)
    else (.compliant, [])

/-! ### OSPF state parser (`parse_ospf_neighbors`, `parse_ospf_timers`) -/

/-- One parsed row of `show ip ospf neighbor` output
(troubleshooting.py:117; `instance` is a Lean keyword, so that field is
named `inst`, and the `interface` field `intf`). -/
structure OspfNeighbor where
  neighbor_id : Str
  inst : Str
  vrf : Str
  priority : Str
  state : Str
  address : Str
  intf : Str
deriving DecidableEq, Repr

/-- `parse_ospf_neighbors` (troubleshooting.py:106): skip the header line,
keep rows with at least 8 whitespace-separated fields, read the positional
fields (index 5 is skipped in the source). -/
def parse_ospf_neighbors (output : Str) : List OspfNeighbor :=
  ((pyLines output).drop 1).foldl
    (fun neighbors line =>
      let parts := pySplitWs line
      if parts.length ≥ 8 then
        neighbors ++ [{ neighbor_id := parts.getD 0 [], inst := parts.getD 1 [],
                        vrf := parts.getD 2 [], priority := parts.getD 3 [],
                        state := parts.getD 4 [], address := parts.getD 6 [],
                        intf := parts.getD 7 [] }]
      else neighbors)
    []

/-- Row parser used to restate `parse_ospf_neighbors` as a `filterMap`
(claim C4's "rows with fewer than 8 fields are discarded"). -/
def neighborOfLine (line : Str) : Option OspfNeighbor :=
  let parts := pySplitWs line
  if parts.length ≥ 8 then
    some { neighbor_id := parts.getD 0 [], inst := parts.getD 1 [],
           vrf := parts.getD 2 [], priority := parts.getD 3 [],
           state := parts.getD 4 [], address := parts.getD 6 [],
           intf := parts.getD 7 [] }
  else none

/-- One mismatched-timer record of `parse_ospf_timers`
(troubleshooting.py:182; the `interface` field is named `intf`). -/
structure OspfTimerFault where
  intf : Str
  hello_timer : Int
  dead_timer : Int
  retransmit_timer : Int
deriving DecidableEq, Repr

/-- The Python exceptions `parse_ospf_timers` can raise. -/
inductive PyErr where
  | indexError
  | valueError
  | nameError
deriving DecidableEq, Repr

/-- Python list indexing `parts[i]`, raising `IndexError` out of range. -/
def pyIndex (parts : List Str) (i : Nat) : Except PyErr Str :=
  match parts.get? i with
  | some v => .ok v
  | none => .error .indexError

/-- Python `s.split()[1]`, raising `IndexError` when there is no second field. -/
def secondTok (s : Str) : Except PyErr Str :=
  match (pySplitWs s).get? 1 with
  | some t => .ok t
  | none => .error .indexError

/-- Python `int(s)`, raising `ValueError` on non-numeric input. -/
def pyIntE (s : Str) : Except PyErr Int :=
  match pyInt s with
  | some n => .ok n
  | none => .error .valueError

/-- One iteration of the `parse_ospf_timers` loop (troubleshooting.py:169):
state is (current interface name, faults so far).  A `Timer intervals
configured` line is split on `", "`; fields 1-3 hold the hello, dead and
retransmit values; referencing the interface name before any `is up` line
raises `NameError` (the Python variable is unbound). -/
def timersStep (st : Option Str × List OspfTimerFault) (line : Str) :
    Except PyErr (Option Str × List OspfTimerFault) :=
  if occursIn ("is up".data) line then
    match pySplitWs line with
    | [] => .error .indexError
    | w :: _ => .ok (some w, st.2)
  else if occursIn ("Timer intervals configured".data) line then do
    let parts := splitOnSep (", ".data) line
    let p1 ← pyIndex parts 1
    let t1 ← secondTok p1
    let hello_timer ← pyIntE t1
    let p2 ← pyIndex parts 2
    let t2 ← secondTok p2
    let dead_timer ← pyIntE t2
    let p3 ← pyIndex parts 3
    let t3 ← secondTok p3
    let retransmit_timer ← pyIntE t3
    if hello_timer ≠ 10 ∨ dead_timer ≠ 40 ∨ retransmit_timer ≠ 5 then
      match st.1 with
      | none => .error .nameError
      | some name =>
        .ok (st.1, st.2 ++ [⟨name, hello_timer, dead_timer, retransmit_timer⟩])
    else .ok st
  else .ok st

/-- `parse_ospf_timers` (troubleshooting.py:162): scan the output of
`show ip ospf interface | section Hello` for interfaces whose timers deviate
from the defaults hello=10, dead=40, retransmit=5.  An exception aborts the
whole parse (`Except.error`). -/
def parse_ospf_timers (output : Str) : Except PyErr (List OspfTimerFault) := do
  let st ← (pyLines output).foldlM timersStep (none, [])
  pure st.2

/-! ### Reconciliation engine (`compare_ospf_neighbors`, `compare_ospf_config`) -/

/-- Python dict insertion: update the value in place if the key exists,
otherwise append the new binding. -/
def upsert : List (Str × Str) → Str → Str → List (Str × Str)
  | [], k, v => [(k, v)]
  | (k', v') :: rest, k, v =>
    if k' = k then (k', v) :: rest else (k', v') :: upsert rest k v

/-- The dict comprehension `{n["neighbor_id"]: n["state"] for n in ns}`
(troubleshooting.py:237): built left to right, later rows overwrite earlier
ones. -/
def buildMap (ns : List OspfNeighbor) : List (Str × Str) :=
  ns.foldl (fun m n => upsert m n.neighbor_id n.state) []

/-- Dict lookup. -/
def lookupAL : List (Str × Str) → Str → Option Str
  | [], _ => none
  | (k, v) :: rest, key => if k = key then some v else lookupAL rest key

/-- Dict keys, in insertion order. -/
def keysAL (m : List (Str × Str)) : List Str := m.map Prod.fst

/-- The state of the last parsed row carrying the given neighbor id, if any
(the value a Python dict comprehension keeps for a duplicated key). -/
def lastStateOf (rows : List OspfNeighbor) (id : Str) : Option Str :=
  ((rows.filter (fun n => decide (n.neighbor_id = id))).map (fun n => n.state)).getLast?

/-- The healthy-adjacency predicate (troubleshooting.py:256): the state token
starts with `2` or with `FULL`. -/
def healthyState (st : Str) : Bool :=
  pyStartsWith st ("2".data) || pyStartsWith st ("FULL".data)

/-- `missing_neighbors = set(golden) - set(live)` (troubleshooting.py:241).
Python's set iteration order is unspecified; the membership is modelled
exactly, the order as golden-map insertion order. -/
def missingOf (goldenMap liveMap : List (Str × Str)) : List Str :=
  (keysAL goldenMap).filter (fun k => !(decide (k ∈ keysAL liveMap)))

/-- `unexpected_neighbors = set(live) - set(golden)` (troubleshooting.py:242):
reported, never remediated. -/
def unexpectedOf (goldenMap liveMap : List (Str × Str)) : List Str :=
  (keysAL liveMap).filter (fun k => !(decide (k ∈ keysAL goldenMap)))

/-- The state-mismatch loop (troubleshooting.py:253): neighbors present in
both maps whose live state is not healthy, in live-map order. -/
def unhealthyOf (goldenMap liveMap : List (Str × Str)) : List Str :=
  (liveMap.filter (fun kv => decide (kv.1 ∈ keysAL goldenMap) && !healthyState kv.2)).map
    Prod.fst

/-- `problematic_neighbors` (troubleshooting.py:244, 258): the missing
neighbors followed by the unhealthy ones. -/
def problematicOf (goldenMap liveMap : List (Str × Str)) : List Str :=
  missingOf goldenMap liveMap ++ unhealthyOf goldenMap liveMap

/-- The command string `show running-config | section router ospf`. -/
def showRunOspfCmd : Str := "show running-config | section router ospf".data

/-- The command string `show ip ospf interface | section Hello`. -/
def showTimersCmd : Str := "show ip ospf interface | section Hello".data

/-- The command string `show ip ospf neighbor`. -/
def showNeighborsCmd : Str := "show ip ospf neighbor".data

/-- The timer-fix config set pushed for one mismatched interface
(troubleshooting.py:215 and 293). -/
def timerFixCommands (f : OspfTimerFault) : List Str :=
  [("interface ".data) ++ f.intf,
   "ip ospf hello-interval 10".data,
   "ip ospf dead-interval 40".data,
   "ip ospf retransmit-interval 5".data]

/-- `compare_ospf_config` (troubleshooting.py:192), with the responses to the
two show commands passed as arguments; returns the session actions issued.
If the OSPF process configuration contains the token `shutdown`, the fix
`["router ospf 1", "no shutdown"]` is pushed and the function returns;
otherwise the interface timers are checked and mismatched interfaces fixed
immediately.  A parse exception is caught by the function's own handler,
ending its action sequence. -/
def compare_ospf_config (ospfConfig timersOutput : Str) : List Action :=
  Action.sendCommand showRunOspfCmd ::
  (if occursIn ("shutdown".data) ospfConfig then
    [Action.sendConfigSet ["router ospf 1".data, "no shutdown".data], Action.wait 10]
  else
    Action.sendCommand showTimersCmd ::
    (match parse_ospf_timers timersOutput with
     | .error _ => []
     | .ok fixes =>
       if fixes ≠ [] then
         fixes.map (fun f => Action.sendConfigSet (timerFixCommands f)) ++ [Action.wait 10]
       else []))

/-- The device responses consumed while remediating one problematic neighbor,
in the order the code requests them. -/
structure SessionEnv where
  ospfConfig : Str
  timersOut1 : Str
  repollOut1 : Str
  timersOut2 : Str
  repollOut2 : Str
deriving Repr

/-- The re-poll health check (troubleshooting.py:278): the neighbor is in the
re-polled map and its state starts with `2` or `FULL`. -/
def healthyIn (repollOutput : Str) (nid : Str) : Bool :=
  match lookupAL (buildMap (parse_ospf_neighbors repollOutput)) nid with
  | some st => healthyState st
  | none => false

/-- Outcome of the per-neighbor remediation loop body
(troubleshooting.py:267-317).  `aborted` models the uncaught exception that
`parse_ospf_timers` can raise in step 2 (there is no handler in
`compare_ospf_neighbors`, so it propagates). -/
inductive Outcome where
  | resolvedStep1
  | resolvedStep2
  | unresolved
  | aborted
deriving DecidableEq, Repr

/-- The per-neighbor body of the remediation loop (troubleshooting.py:267):
run `compare_ospf_config`, wait, re-poll and check; if not healthy, fetch the
timers again, fix any mismatched interfaces, wait, re-poll and check; if
nothing was fixed or the neighbor is still unhealthy, the outcome is
`unresolved` and nothing further is attempted. -/
def remediate_neighbor (env : SessionEnv) (nid : Str) : Outcome × List Action :=
  let tr1 := compare_ospf_config env.ospfConfig env.timersOut1 ++
    [Action.wait 10, Action.sendCommand showNeighborsCmd]
  if healthyIn env.repollOut1 nid then (.resolvedStep1, tr1)
  else
    let tr2 := tr1 ++ [Action.sendCommand showTimersCmd]
    match parse_ospf_timers env.timersOut2 with
    | .error _ => (.aborted, tr2)
    | .ok fixes =>
      if fixes ≠ [] then
        let tr3 := tr2 ++ fixes.map (fun f => Action.sendConfigSet (timerFixCommands f)) ++
          [Action.wait 10, Action.sendCommand showNeighborsCmd]
        if healthyIn env.repollOut2 nid then (.resolvedStep2, tr3)
        else (.unresolved, tr3)
      else (.unresolved, tr2)

/-- The neighbors the remediation loop iterates over
(troubleshooting.py:267): exactly `problematic_neighbors`. -/
def remediationTargets (live_neighbors golden_neighbors : List OspfNeighbor) : List Str :=
  problematicOf (buildMap golden_neighbors) (buildMap live_neighbors)

/-- `compare_ospf_neighbors`' remediation phase (troubleshooting.py:267):
one remediation run per problematic neighbor, with `envs nid` the device
responses observed during that neighbor's turn. -/
def compare_ospf_neighbors_model (envs : Str → SessionEnv)
    (live_neighbors golden_neighbors : List OspfNeighbor) :
    List (Str × Outcome × List Action) :=
  (remediationTargets live_neighbors golden_neighbors).map
    (fun nid => (nid, remediate_neighbor (envs nid) nid))

/-- Whether an action is the neighbor-table re-poll command. -/
def isRepollCmd : Action → Bool
  | .sendCommand c => decide (c = showNeighborsCmd)
  | _ => false

/-- Number of neighbor-table re-polls in a trace. -/
def repollCount (tr : List Action) : Nat := tr.countP isRepollCmd

/-- Whether an action is the timer-output fetch command. -/
def isTimerFetchCmd : Action → Bool
  | .sendCommand c => decide (c = showTimersCmd)
  | _ => false

/-- Number of timer-output fetches in a trace. -/
def timerFetchCount (tr : List Action) : Nat := tr.countP isTimerFetchCmd

/-- Whether an action is a timer-fix config set (its first line enters an
interface). -/
def isTimerFixSet : Action → Bool
  | .sendConfigSet ls => pyStartsWith (ls.headD []) ("interface ".data)
  | _ => false

/-- Number of timer-fix config sets in a trace. -/
def timerFixCount (tr : List Action) : Nat := tr.countP isTimerFixSet

/-- Whether an action is the shutdown-fix config set. -/
def isShutdownFixSet : Action → Bool
  | .sendConfigSet ls => decide (ls = ["router ospf 1".data, "no shutdown".data])
  | _ => false

/-- Number of shutdown-fix config sets in a trace. -/
def shutdownFixCount (tr : List Action) : Nat := tr.countP isShutdownFixSet

/-! ### Derived readers and concrete inputs used by the claims -/

/-- Concatenating, in order, all emitted diff lines not tagged removed
(unified tag reading: a line is removed iff it starts with `-`), with the
one-character unified prefix dropped — claim C1's live-side reconstruction of
the engine's actual output. -/
def unifiedNonRemoved (diff : List Str) : List Str :=
  (diff.filter (fun l => !pyStartsWith l ("-".data))).map (fun l => l.drop 1)

/-- Claim C1's golden-side reconstruction of the engine's actual output:
all emitted diff lines not tagged added (not starting with `+`). -/
def unifiedNonAdded (diff : List Str) : List Str :=
  (diff.filter (fun l => !pyStartsWith l ("+".data))).map (fun l => l.drop 1)

/-- A canonical `Timer intervals configured` line reporting the given
hello/dead/retransmit values. -/
def timerLine (h d r : Nat) : Str :=
  ("Timer intervals configured, Hello ".data) ++ natRepr h ++
    (", Dead ".data) ++ natRepr d ++ (", Retransmit ".data) ++ natRepr r

/-- A canonical `show ip ospf interface | section Hello` block for interface
`Ethernet0/0` reporting the given hello/dead/retransmit values. -/
def mkTimerBlock (h d r : Nat) : Str :=
  ("Ethernet0/0 is up".data) ++ '\n' :: timerLine h d r

/-- Device responses refuting claim C2: no `shutdown` token in the OSPF
process configuration, one mismatched-timer interface, and a first re-poll
showing the neighbor healthy. -/
def envC2 : SessionEnv :=
  { ospfConfig := "router ospf 1".data,
    timersOut1 := ("Ethernet0/0 is up\nTimer intervals configured, Hello 5, Dead 40, Retransmit 5".data),
    repollOut1 := ("H\n10.0.0.2 1 default 1 FULL/DR 00:00:33 10.1.1.2 Ethernet0/0".data),
    timersOut2 := [],
    repollOut2 := [] }

/-- Device responses for the witness of the amended claim C2: no `shutdown`
token, a first re-poll showing the neighbor still down, a second timer fetch
with one mismatched interface, and a second re-poll showing it healthy. -/
def envC2w : SessionEnv :=
  { ospfConfig := "router ospf 1".data,
    timersOut1 := [],
    repollOut1 := ("H\n10.0.0.2 1 default 1 DOWN/- 00:00:33 10.1.1.2 Ethernet0/0".data),
    timersOut2 := ("Ethernet0/0 is up\nTimer intervals configured, Hello 5, Dead 40, Retransmit 5".data),
    repollOut2 := ("H\n10.0.0.2 1 default 1 FULL/DR 00:00:33 10.1.1.2 Ethernet0/0".data) }

/-- Timer output whose first `Timer intervals configured` line is malformed
(fewer than four `", "`-separated fields) and whose second block is
well-formed with a mismatched hello timer — claim C4's failing input. -/
def c4BadTimersText : Str :=
  ("Timer intervals configured, Hello 5\nEthernet0/0 is up\nTimer intervals configured, Hello 99, Dead 40, Retransmit 5".data)

/-! ### Diff engine lemmas -/

theorem toLive_diffTaggedF (fuel : Nat) :
    ∀ a b : List Str, toLive (diffTaggedF fuel a b) = b := by
  induction fuel with
  | zero =>
    intro a b
    simp [diffTaggedF, toLive, List.filter_append, List.filter_map, Function.comp_def]
  | succ f ih =>
    intro a b
    match a, b with
    | [], [] => simp [diffTaggedF, toLive]
    | [], b :: bs => simpa [diffTaggedF, toLive] using ih [] bs
    | a :: as, [] => simpa [diffTaggedF, toLive] using ih as []
    | a :: as, b :: bs =>
      by_cases h : a = b
      · subst h
        simpa [diffTaggedF, toLive] using ih as bs
      · by_cases h2 : lcsLenF f (a :: as) bs ≤ lcsLenF f as (b :: bs)
        · simpa [diffTaggedF, toLive, h, h2] using ih as (b :: bs)
        · simpa [diffTaggedF, toLive, h, h2] using ih (a :: as) bs

theorem toGolden_diffTaggedF (fuel : Nat) :
    ∀ a b : List Str, toGolden (diffTaggedF fuel a b) = a := by
  induction fuel with
  | zero =>
    intro a b
    simp [diffTaggedF, toGolden, List.filter_append, List.filter_map, Function.comp_def]
  | succ f ih =>
    intro a b
    match a, b with
    | [], [] => simp [diffTaggedF, toGolden]
    | [], b :: bs => simpa [diffTaggedF, toGolden] using ih [] bs
    | a :: as, [] => simpa [diffTaggedF, toGolden] using ih as []
    | a :: as, b :: bs =>
      by_cases h : a = b
      · subst h
        simpa [diffTaggedF, toGolden] using ih as bs
      · by_cases h2 : lcsLenF f (a :: as) bs ≤ lcsLenF f as (b :: bs)
        · simpa [diffTaggedF, toGolden, h, h2] using ih as (b :: bs)
        · simpa [diffTaggedF, toGolden, h, h2] using ih (a :: as) bs

theorem diffTaggedF_self (fuel : Nat) :
    ∀ l : List Str, l.length ≤ fuel →
      diffTaggedF fuel l l = l.map (fun t => ⟨DTag.unchanged, t⟩) := by
  induction fuel with
  | zero =>
    intro l hl
    have : l = [] := List.length_eq_zero.mp (Nat.le_zero.mp hl)
    subst this
    simp [diffTaggedF]
  | succ f ih =>
    intro l hl
    match l with
    | [] => simp [diffTaggedF]
    | a :: as =>
      have has : as.length ≤ f := by simpa using hl
      simp [diffTaggedF, ih as has]

theorem diffTagged_self (l : List Str) :
    diffTagged l l = l.map (fun t => ⟨DTag.unchanged, t⟩) :=
  diffTaggedF_self (l.length + l.length) l (by omega)

theorem splitRunsAux_all (cls : Bool) :
    ∀ (rest : List DLine) (cur : List DLine), (∀ x ∈ rest, isUnch x = cls) →
      splitRunsAux cur cls rest = [cur.reverse ++ rest] := by
  intro rest
  induction rest with
  | nil => intro cur _; simp [splitRunsAux]
  | cons d ds ih =>
    intro cur h
    have hd : isUnch d = cls := h d (by simp)
    rw [splitRunsAux, if_pos hd, ih (d :: cur) (fun x hx => h x (by simp [hx]))]
    simp

theorem splitRuns_map_unchanged (l : List Str) (hl : l ≠ []) :
    splitRuns (l.map (fun t => (⟨DTag.unchanged, t⟩ : DLine))) =
      [l.map (fun t => ⟨DTag.unchanged, t⟩)] := by
  cases l with
  | nil => exact absurd rfl hl
  | cons a as =>
    rw [List.map_cons, splitRuns]
    have h := splitRunsAux_all (isUnch ⟨DTag.unchanged, a⟩)
      (as.map (fun t => (⟨DTag.unchanged, t⟩ : DLine))) [⟨DTag.unchanged, a⟩]
      (by
        intro x hx
        obtain ⟨t, _, rfl⟩ := List.mem_map.mp hx
        rfl)
    rw [h]
    simp

theorem get_opcodes_self (l : List Str) :
    get_opcodes (diffTagged l l) =
      if l = [] then [] else [⟨OTag.equal, 0, l.length, 0, l.length⟩] := by
  rw [diffTagged_self]
  by_cases hl : l = []
  · subst hl; simp [get_opcodes, splitRuns, opcodesAux]
  · rw [if_neg hl, get_opcodes, splitRuns_map_unchanged l hl]
    simp only [opcodesAux, runOpcode]
    have hall : (l.map (fun t => (⟨DTag.unchanged, t⟩ : DLine))).all isUnch = true := by
      simp [List.all_eq_true, isUnch]
    have hk : ((l.map (fun t => (⟨DTag.unchanged, t⟩ : DLine))).filter
        (fun d => !decide (d.tag = DTag.added))).length = l.length := by
      rw [List.filter_map]
      simp [Function.comp]
    have hm : ((l.map (fun t => (⟨DTag.unchanged, t⟩ : DLine))).filter
        (fun d => !decide (d.tag = DTag.removed))).length = l.length := by
      rw [List.filter_map]
      simp [Function.comp]
    simp [hall, hk, hm]

theorem grouped_nil : get_grouped_opcodes [] = [] := by decide

theorem groupWalk_single_equal (i1 i2 j1 j2 : Nat) (hle : ¬ i2 - i1 > 6) :
    groupWalk [⟨OTag.equal, i1, i2, j1, j2⟩] [] = [] := by
  rw [groupWalk, if_neg (fun h => hle h.2)]
  rw [List.nil_append, groupWalk]
  simp

theorem grouped_single_equal (n : Nat) :
    get_grouped_opcodes [⟨OTag.equal, 0, n, 0, n⟩] = [] := by
  have step : get_grouped_opcodes [⟨OTag.equal, 0, n, 0, n⟩] =
      groupWalk [⟨OTag.equal, max 0 (n - 3), min n (max 0 (n - 3) + 3),
        max 0 (n - 3), min n (max 0 (n - 3) + 3)⟩] [] := by
    simp [get_grouped_opcodes, mapHead, mapLast, trimHead, trimTail]
  rw [step]
  exact groupWalk_single_equal _ _ _ _ (by omega)

theorem unified_diff_self (l : List Str) : unified_diff l l = [] := by
  unfold unified_diff
  rw [get_opcodes_self]
  by_cases hl : l = []
  · rw [if_pos hl, grouped_nil]
  · rw [if_neg hl, grouped_single_equal]

/-- C1 (counterexample): for golden = live = ["a"], the diff the engine
produces (`difflib.unified_diff`) is empty, so concatenating its non-removed
(resp. non-added) lines yields the empty sequence, not the live (resp.
golden) configuration. -/
theorem c1_counterexample :
    unified_diff (normalize_config ("a".data)) (normalize_config ("a".data)) = [] ∧
    unifiedNonRemoved
        (unified_diff (normalize_config ("a".data)) (normalize_config ("a".data))) ≠
      normalize_config ("a".data) ∧
    unifiedNonAdded
        (unified_diff (normalize_config ("a".data)) (normalize_config ("a".data))) ≠
      normalize_config ("a".data) := by
  decide

/-- C1 (amended): the reconstruction invariant holds for the full line-tagged
LCS diff underlying the engine: the lines not tagged removed are exactly the
live sequence and the lines not tagged added are exactly the golden sequence.
(The unified-format diff the engine actually emits keeps only hunks of at
most 3 context lines plus header lines, so concatenation does not reconstruct
either side of it in general.) -/
theorem c1_tagged_diff_reconstructs (golden live : List Str) :
    toLive (diffTagged golden live) = live ∧
    toGolden (diffTagged golden live) = golden :=
  ⟨toLive_diffTaggedF (golden.length + live.length) golden live,
   toGolden_diffTaggedF (golden.length + live.length) golden live⟩

/-- C8: diffing any configuration text against itself yields an empty diff
(hence no added and no removed lines), `parse_contextual_commands` on that
diff returns no commands, and `compare_configs` reports the device compliant
and issues no session action. -/
theorem c8_self_diff_compliant (cfg : Str) :
    unified_diff (normalize_config cfg) (normalize_config cfg) = [] ∧
    parse_contextual_commands
        (unified_diff (normalize_config cfg) (normalize_config cfg)) = [] ∧
    compare_configs_model cfg (some cfg) = (CCResult.compliant, []) := by
  refine ⟨unified_diff_self _, ?_, ?_⟩
  · rw [unified_diff_self]
    rfl
  · simp [compare_configs_model, unified_diff_self, joinLines]

/-! ### Rollback-derivation lemmas (claim C3) -/

theorem pccStep_snd_of_not_setter (st : List (Option Str × Str) × Option Str)
    (line : Str) (h : isCtxSetter line = false) : (pccStep st line).2 = st.2 := by
  obtain ⟨cmds, ctx⟩ := st
  by_cases hC1 : (pyStartsWith line ("+".data) && !pyStartsWith line ("+++".data)) = true
  · simp only [pccStep, if_pos hC1]
    split <;> rfl
  · by_cases hC3 : (!pyStartsWith line ("-".data) && !pyStartsWith line ("@".data) &&
        !pyStartsWith line ("+".data)) = true
    · by_cases hC4 : (pyStartsWith (pyStrip line) ("interface".data) ||
          pyStartsWith (pyStrip line) ("router".data)) = true
      · exfalso
        rw [isCtxSetter, hC3, hC4] at h
        simp at h
      · simp [pccStep, hC1, hC3, hC4]
    · simp [pccStep, hC1, hC3]

theorem foldl_pcc_snd (B : List Str) (hB : ∀ l ∈ B, isCtxSetter l = false) :
    ∀ st, (B.foldl pccStep st).2 = st.2 := by
  induction B with
  | nil => intro st; rfl
  | cons b bs ih =>
    intro st
    rw [List.foldl_cons, ih (fun l hl => hB l (by simp [hl]))]
    exact pccStep_snd_of_not_setter st b (hB b (by simp))

theorem pccStep_setter (st : List (Option Str × Str) × Option Str) (line : Str)
    (h : isCtxSetter line = true) : pccStep st line = (st.1, some (pyStrip line)) := by
  obtain ⟨cmds, ctx⟩ := st
  have h' := h
  simp only [isCtxSetter, Bool.and_eq_true] at h'
  obtain ⟨⟨⟨hm', ha'⟩, hp'⟩, hB⟩ := h'
  have hm : pyStartsWith line ("-".data) = false := by simpa using hm'
  have ha : pyStartsWith line ("@".data) = false := by simpa using ha'
  have hp : pyStartsWith line ("+".data) = false := by simpa using hp'
  simp only [pccStep]
  rw [if_neg (by simp [hp]), if_pos (by simp [hm, ha, hp]), if_pos hB]

theorem pccStep_plus (st : List (Option Str × Str) × Option Str) (t : Str)
    (h3 : pyStartsWith ('+' :: t) ("+++".data) = false)
    (h1 : pyStrip t ≠ []) (h2 : pyStartsWith (pyStrip t) ("!".data) = false) :
    pccStep st ('+' :: t) = (st.1 ++ [(st.2, ("no ".data) ++ pyStrip t)], st.2) := by
  obtain ⟨cmds, ctx⟩ := st
  have hC1 : (pyStartsWith ('+' :: t) ("+".data) &&
      !pyStartsWith ('+' :: t) ("+++".data)) = true := by
    simp [pyStartsWith, List.isPrefixOf] at h3 ⊢
    simpa using h3
  have hdrop : (('+' :: t).drop 1) = t := rfl
  simp [pccStep, hC1, hdrop, h1, h2]

/-- C3 (counterexample): golden `["interface Gi0/1", "ip ospf cost 10"]`
against live `["shutdown"]` yields a diff whose added line `+shutdown` is
preceded by the removed context line `-interface Gi0/1` and by no other
context line, yet the derived command's context is `none`, not
`interface Gi0/1` — removed lines never set the context. -/
theorem c3_counterexample :
    unified_diff (normalize_config ("interface Gi0/1\nip ospf cost 10".data))
        (normalize_config ("shutdown".data)) =
      [("--- Golden Config".data), ("+++ Current Config".data), ("@@ -1,2 +1 @@".data),
       ("-interface Gi0/1".data), ("-ip ospf cost 10".data), ("+shutdown".data)] ∧
    parse_contextual_commands
        (unified_diff (normalize_config ("interface Gi0/1\nip ospf cost 10".data))
          (normalize_config ("shutdown".data))) =
      [(none, ("no shutdown".data))] ∧
    (none : Option Str) ≠ some ("interface Gi0/1".data) := by
  decide

/-- C3 (amended): an added line whose stripped text is non-empty and does not
start with `!` emits `(current_context, "no " + text)`, where
`current_context` is the most recent preceding **unchanged** context line
(stripped text starting with `interface` or `router`); removed (and added)
lines never update the context, so after an unchanged `interface Gi0/1` line
and before any other context-setting line the emitted context is
`interface Gi0/1`. -/
theorem c3_context_from_unchanged_lines (A B : List Str) (c t : Str)
    (hc : isCtxSetter c = true)
    (hB : ∀ l ∈ B, isCtxSetter l = false)
    (ht1 : pyStrip t ≠ [])
    (ht2 : pyStartsWith (pyStrip t) ("!".data) = false)
    (ht3 : pyStartsWith ('+' :: t) ("+++".data) = false) :
    parse_contextual_commands (A ++ c :: B ++ ['+' :: t]) =
      parse_contextual_commands (A ++ c :: B) ++
        [(some (pyStrip c), ("no ".data) ++ pyStrip t)] := by
  unfold parse_contextual_commands
  have hassoc : A ++ c :: B ++ ['+' :: t] = (A ++ (c :: B)) ++ ['+' :: t] := by simp
  rw [hassoc, List.foldl_append, List.foldl_append]
  have hsnd : ((c :: B).foldl pccStep (A.foldl pccStep ([], none))).2 = some (pyStrip c) := by
    rw [List.foldl_cons, foldl_pcc_snd B hB, pccStep_setter _ c hc]
  rw [List.foldl_cons, List.foldl_cons,
    pccStep_plus ((B.foldl pccStep (pccStep (A.foldl pccStep ([], none)) c))) t ht3 ht1 ht2]
  rw [List.foldl_cons] at hsnd
  rw [hsnd]
  rfl

/-- C3 (witness for the amended theorem): concrete diff lines
`[" interface Gi0/1", "-ip ospf cost 10", "+shutdown"]`. -/
theorem c3_context_witness :
    parse_contextual_commands
        [(" interface Gi0/1".data), ("-ip ospf cost 10".data), ("+shutdown".data)] =
      parse_contextual_commands [(" interface Gi0/1".data), ("-ip ospf cost 10".data)] ++
        [(some ("interface Gi0/1".data), ("no shutdown".data))] := by
  have h := c3_context_from_unchanged_lines [] [("-ip ospf cost 10".data)]
    (" interface Gi0/1".data) ("shutdown".data)
    (by decide) (by decide) (by decide) (by decide) (by decide)
  simpa using h

/-! ### Shutdown remediation (claim C9) -/

/-- C9: whenever the token `shutdown` occurs anywhere in the OSPF process
configuration text, the corrective config set issued is exactly
`["router ospf 1", "no shutdown"]` — the process number 1 is hardcoded. -/
theorem c9_shutdown_fix_hardcoded (ospfConfig timersOutput : Str)
    (h : occursIn ("shutdown".data) ospfConfig = true) :
    configSetsOf (compare_ospf_config ospfConfig timersOutput) =
      [["router ospf 1".data, "no shutdown".data]] := by
  unfold compare_ospf_config
  rw [if_pos h]
  rfl

/-- C9 (witness): the `shutdown` token sits under `router ospf 2`, yet the fix
issued is `["router ospf 1", "no shutdown"]`. -/
theorem c9_witness :
    occursIn ("shutdown".data) ("router ospf 2\n shutdown".data) = true ∧
    configSetsOf (compare_ospf_config ("router ospf 2\n shutdown".data) []) =
      [["router ospf 1".data, "no shutdown".data]] :=
  ⟨by decide, c9_shutdown_fix_hardcoded ("router ospf 2\n shutdown".data) [] (by decide)⟩

/-! ### Remediation-loop lemmas (claim C2) -/

@[simp] theorem isRepollCmd_showRun :
    isRepollCmd (Action.sendCommand showRunOspfCmd) = false := by decide

@[simp] theorem isRepollCmd_showTimers :
    isRepollCmd (Action.sendCommand showTimersCmd) = false := by decide

@[simp] theorem isRepollCmd_showNeighbors :
    isRepollCmd (Action.sendCommand showNeighborsCmd) = true := by decide

@[simp] theorem isRepollCmd_wait (n : Nat) : isRepollCmd (Action.wait n) = false := rfl

@[simp] theorem isRepollCmd_configSet (ls : List Str) :
    isRepollCmd (Action.sendConfigSet ls) = false := rfl

theorem timerFix_ne_shutdownList (f : OspfTimerFault) :
    timerFixCommands f ≠ ["router ospf 1".data, "no shutdown".data] := by
  have h1 : ("interface ".data : Str) = 'i' :: ("nterface ".data) := by decide
  have h2 : ("router ospf 1".data : Str) = 'r' :: ("outer ospf 1".data) := by decide
  unfold timerFixCommands
  rw [h1, h2]
  simp

@[simp] theorem isShutdownFixSet_timerFix (f : OspfTimerFault) :
    isShutdownFixSet (Action.sendConfigSet (timerFixCommands f)) = false := by
  simp [isShutdownFixSet, timerFix_ne_shutdownList f]

@[simp] theorem isShutdownFixSet_cmd (c : Str) :
    isShutdownFixSet (Action.sendCommand c) = false := rfl

@[simp] theorem isShutdownFixSet_wait (n : Nat) :
    isShutdownFixSet (Action.wait n) = false := rfl

@[simp] theorem repollCount_nil : repollCount [] = 0 := rfl

@[simp] theorem repollCount_append (l1 l2 : List Action) :
    repollCount (l1 ++ l2) = repollCount l1 + repollCount l2 :=
  List.countP_append _ _ _

@[simp] theorem repollCount_cons (a : Action) (tr : List Action) :
    repollCount (a :: tr) = repollCount tr + (if isRepollCmd a then 1 else 0) := by
  unfold repollCount
  rw [List.countP_cons]

@[simp] theorem shutdownFixCount_nil : shutdownFixCount [] = 0 := rfl

@[simp] theorem shutdownFixCount_append (l1 l2 : List Action) :
    shutdownFixCount (l1 ++ l2) = shutdownFixCount l1 + shutdownFixCount l2 :=
  List.countP_append _ _ _

@[simp] theorem shutdownFixCount_cons (a : Action) (tr : List Action) :
    shutdownFixCount (a :: tr) = shutdownFixCount tr + (if isShutdownFixSet a then 1 else 0) := by
  unfold shutdownFixCount
  rw [List.countP_cons]

theorem repollCount_timerFixActs (fixes : List OspfTimerFault) :
    repollCount (fixes.map (fun f => Action.sendConfigSet (timerFixCommands f))) = 0 := by
  unfold repollCount
  rw [List.countP_eq_zero]
  intro a ha
  obtain ⟨f, _, rfl⟩ := List.mem_map.mp ha
  simp

theorem shutdownFixCount_timerFixActs (fixes : List OspfTimerFault) :
    shutdownFixCount (fixes.map (fun f => Action.sendConfigSet (timerFixCommands f))) = 0 := by
  unfold shutdownFixCount
  rw [List.countP_eq_zero]
  intro a ha
  obtain ⟨f, _, rfl⟩ := List.mem_map.mp ha
  simp

theorem repollCount_coc (a b : Str) : repollCount (compare_ospf_config a b) = 0 := by
  unfold compare_ospf_config
  by_cases h : occursIn ("shutdown".data) a = true
  · rw [if_pos h]
    simp
  · rw [if_neg h]
    cases hp : parse_ospf_timers b with
    | error e => simp
    | ok fixes =>
      by_cases hfix : fixes ≠ []
      · simp [hfix, repollCount_timerFixActs]
      · simp [hfix]

theorem shutdownFixCount_coc (a b : Str) :
    shutdownFixCount (compare_ospf_config a b) ≤ 1 := by
  unfold compare_ospf_config
  by_cases h : occursIn ("shutdown".data) a = true
  · rw [if_pos h]
    simp [isShutdownFixSet]
  · rw [if_neg h]
    cases hp : parse_ospf_timers b with
    | error e => simp
    | ok fixes =>
      by_cases hfix : fixes ≠ []
      · simp [hfix, shutdownFixCount_timerFixActs]
      · simp [hfix]

/-- C2 (counterexample): with no `shutdown` token in the OSPF process
configuration, a mismatched interface timer and a first re-poll showing the
neighbor healthy, the remediation run still pushes a timer-fix config set —
the timer remediation inside `compare_ospf_config` runs before any re-poll,
not only when the first attempt failed to leave the neighbor healthy. -/
theorem c2_counterexample :
    (remediate_neighbor envC2 ("10.0.0.2".data)).1 = Outcome.resolvedStep1 ∧
    healthyIn envC2.repollOut1 ("10.0.0.2".data) = true ∧
    timerFixCount (remediate_neighbor envC2 ("10.0.0.2".data)).2 = 1 ∧
    shutdownFixCount (remediate_neighbor envC2 ("10.0.0.2".data)).2 = 0 := by
  decide

/-- C2 (amended): per problematic neighbor, remediation is bounded — at most
two re-polls and at most one shutdown fix; round 1 (`compare_ospf_config`)
applies the shutdown fix if the `shutdown` token is present and otherwise
applies the timer fix immediately, before any re-poll; the outcome is
`resolvedStep1` exactly when the first re-poll shows the neighbor healthy (a
healthy first re-poll ends the loop after a single re-poll); `resolvedStep2`
only when the first re-poll was unhealthy and the second healthy; and
`unresolved` only when the first re-poll was unhealthy and either the second
timer check found nothing to fix or the second re-poll was still unhealthy —
with no further retry in any case. -/
theorem c2_bounded_remediation (env : SessionEnv) (nid : Str) :
    repollCount (remediate_neighbor env nid).2 ≤ 2 ∧
    shutdownFixCount (remediate_neighbor env nid).2 ≤ 1 ∧
    ((remediate_neighbor env nid).1 = Outcome.resolvedStep1 ↔
      healthyIn env.repollOut1 nid = true) ∧
    (healthyIn env.repollOut1 nid = true →
      repollCount (remediate_neighbor env nid).2 = 1) ∧
    ((remediate_neighbor env nid).1 = Outcome.resolvedStep2 →
      healthyIn env.repollOut1 nid = false ∧ healthyIn env.repollOut2 nid = true) ∧
    ((remediate_neighbor env nid).1 = Outcome.unresolved →
      healthyIn env.repollOut1 nid = false ∧
        (parse_ospf_timers env.timersOut2 = Except.ok [] ∨
          healthyIn env.repollOut2 nid = false)) := by
  unfold remediate_neighbor
  by_cases h1 : healthyIn env.repollOut1 nid = true
  · rw [if_pos h1]
    refine ⟨?_, ?_, by simp [h1], fun _ => ?_, by simp, by simp⟩
    · simp [repollCount_coc]
    · simpa using shutdownFixCount_coc env.ospfConfig env.timersOut1
    · simp [repollCount_coc]
  · rw [if_neg h1]
    have h1f : healthyIn env.repollOut1 nid = false := by
      cases hb : healthyIn env.repollOut1 nid
      · rfl
      · exact absurd hb h1
    cases hp : parse_ospf_timers env.timersOut2 with
    | error e =>
      dsimp only
      refine ⟨?_, ?_, by simp [h1f], fun hh => absurd hh h1, by simp, by simp⟩
      · simp [repollCount_coc]
      · simpa using shutdownFixCount_coc env.ospfConfig env.timersOut1
    | ok fixes =>
      dsimp only
      by_cases hfix : fixes ≠ []
      · rw [if_pos hfix]
        by_cases h2 : healthyIn env.repollOut2 nid = true
        · rw [if_pos h2]
          refine ⟨?_, ?_, by simp [h1f], fun hh => absurd hh h1,
            fun _ => ⟨h1f, h2⟩, by simp⟩
          · simp [repollCount_coc, repollCount_timerFixActs]
          · simpa [shutdownFixCount_timerFixActs]
              using shutdownFixCount_coc env.ospfConfig env.timersOut1
        · rw [if_neg h2]
          have h2f : healthyIn env.repollOut2 nid = false := by
            cases hb : healthyIn env.repollOut2 nid
            · rfl
            · exact absurd hb h2
          refine ⟨?_, ?_, by simp [h1f], fun hh => absurd hh h1, by simp,
            fun _ => ⟨h1f, Or.inr h2f⟩⟩
          · simp [repollCount_coc, repollCount_timerFixActs]
          · simpa [shutdownFixCount_timerFixActs]
              using shutdownFixCount_coc env.ospfConfig env.timersOut1
      · rw [if_neg hfix]
        rw [not_not] at hfix
        refine ⟨?_, ?_, by simp [h1f], fun hh => absurd hh h1, by simp,
          fun _ => ⟨h1f, Or.inl (by simp [hp, hfix])⟩⟩
        · simp [repollCount_coc]
        · simpa using shutdownFixCount_coc env.ospfConfig env.timersOut1

/-- C2 (witness for the amended theorem): a run in which the first re-poll is
unhealthy and the second resolves the neighbor. -/
theorem c2_bounded_witness :
    repollCount (remediate_neighbor envC2w ("10.0.0.2".data)).2 ≤ 2 ∧
    ((remediate_neighbor envC2w ("10.0.0.2".data)).1 = Outcome.resolvedStep2 →
      healthyIn envC2w.repollOut1 ("10.0.0.2".data) = false ∧
        healthyIn envC2w.repollOut2 ("10.0.0.2".data) = true) :=
  ⟨(c2_bounded_remediation envC2w ("10.0.0.2".data)).1,
   (c2_bounded_remediation envC2w ("10.0.0.2".data)).2.2.2.2.1⟩

/-! ### Neighbor-map lemmas (claims C5, C6, C10) -/

theorem lookupAL_upsert_self (m : List (Str × Str)) (k v : Str) :
    lookupAL (upsert m k v) k = some v := by
  induction m with
  | nil => simp [upsert, lookupAL]
  | cons kv rest ih =>
    obtain ⟨k', v'⟩ := kv
    by_cases h : k' = k
    · simp [upsert, h, lookupAL]
    · simp [upsert, h, lookupAL, ih]

theorem lookupAL_upsert_other (m : List (Str × Str)) (k v key : Str) (h : k ≠ key) :
    lookupAL (upsert m k v) key = lookupAL m key := by
  induction m with
  | nil => simp [upsert, lookupAL, h]
  | cons kv rest ih =>
    obtain ⟨k', v'⟩ := kv
    by_cases h' : k' = k
    · subst h'
      simp [upsert, lookupAL, h]
    · simp [upsert, h', lookupAL, ih]

theorem keysAL_upsert (m : List (Str × Str)) (k v : Str) :
    keysAL (upsert m k v) = if k ∈ keysAL m then keysAL m else keysAL m ++ [k] := by
  induction m with
  | nil => simp [upsert, keysAL]
  | cons kv rest ih =>
    obtain ⟨k', v'⟩ := kv
    by_cases h : k' = k
    · subst h
      simp [upsert, keysAL]
    · have hu : upsert ((k', v') :: rest) k v = (k', v') :: upsert rest k v := by
        simp only [upsert, if_neg h]
      rw [hu]
      have hc1 : keysAL ((k', v') :: upsert rest k v) = k' :: keysAL (upsert rest k v) := rfl
      have hc2 : keysAL ((k', v') :: rest) = k' :: keysAL rest := rfl
      rw [hc1, ih, hc2]
      by_cases hm : k ∈ keysAL rest
      · rw [if_pos hm, if_pos (List.mem_cons_of_mem _ hm)]
      · rw [if_neg hm, if_neg ?_]
        · rfl
        · intro hc
          rcases List.mem_cons.mp hc with hc | hc
          · exact h hc.symm
          · exact hm hc

theorem nodup_keys_upsert (m : List (Str × Str)) (k v : Str)
    (h : (keysAL m).Nodup) : (keysAL (upsert m k v)).Nodup := by
  rw [keysAL_upsert]
  by_cases hm : k ∈ keysAL m
  · simpa [hm] using h
  · simp only [hm, if_false]
    rw [List.nodup_append]
    exact ⟨h, List.nodup_singleton k, by simpa using hm⟩

theorem nodup_keys_buildMap (rows : List OspfNeighbor) :
    (keysAL (buildMap rows)).Nodup := by
  suffices h : ∀ m, (keysAL m).Nodup →
      (keysAL (rows.foldl (fun m n => upsert m n.neighbor_id n.state) m)).Nodup by
    exact h [] (by simp [keysAL])
  induction rows with
  | nil => intro m hm; exact hm
  | cons r rest ih =>
    intro m hm
    exact ih (upsert m r.neighbor_id r.state) (nodup_keys_upsert m _ _ hm)

theorem lookupAL_mem (m : List (Str × Str)) (id st : Str)
    (h : lookupAL m id = some st) : (id, st) ∈ m := by
  induction m with
  | nil => simp [lookupAL] at h
  | cons kv rest ih =>
    obtain ⟨k, v⟩ := kv
    by_cases hk : k = id
    · subst hk
      simp [lookupAL] at h
      simp [h]
    · simp [lookupAL, hk] at h
      simp [ih h]

theorem lookupAL_mem_keys (m : List (Str × Str)) (id st : Str)
    (h : lookupAL m id = some st) : id ∈ keysAL m := by
  have := lookupAL_mem m id st h
  exact List.mem_map.mpr ⟨(id, st), this, rfl⟩

theorem mem_lookupAL_of_nodup (m : List (Str × Str)) (id v : Str)
    (hnd : (keysAL m).Nodup) (h : (id, v) ∈ m) : lookupAL m id = some v := by
  induction m with
  | nil => simp at h
  | cons kv rest ih =>
    obtain ⟨k, v'⟩ := kv
    have hnd2 : k ∉ keysAL rest ∧ (keysAL rest).Nodup := by
      have hc : keysAL ((k, v') :: rest) = k :: keysAL rest := rfl
      rw [hc, List.nodup_cons] at hnd
      exact hnd
    rcases List.mem_cons.mp h with heq | hmem
    · have heq' := heq
      rw [Prod.mk.injEq] at heq'
      obtain ⟨rfl, rfl⟩ := heq'
      simp [lookupAL]
    · by_cases hk : k = id
      · subst hk
        exact absurd (List.mem_map.mpr ⟨(k, v), hmem, rfl⟩) hnd2.1
      · simp [lookupAL, hk, ih hnd2.2 hmem]

/-- C10: the neighbor-id-to-state maps are built left to right with later rows
overwriting earlier ones — lookup in the built map returns the state of the
last row carrying that neighbor id (these maps are what classification and the
re-poll verification consult). -/
theorem c10_last_row_wins (rows : List OspfNeighbor) (id : Str) :
    lookupAL (buildMap rows) id = lastStateOf rows id := by
  suffices h : ∀ m, lookupAL (rows.foldl (fun m n => upsert m n.neighbor_id n.state) m) id =
      match lastStateOf rows id with
      | some st => some st
      | none => lookupAL m id by
    rw [buildMap, h []]
    cases hl : lastStateOf rows id <;> simp [lookupAL]
  induction rows with
  | nil => intro m; simp [lastStateOf]
  | cons r rest ih =>
    intro m
    rw [List.foldl_cons, ih (upsert m r.neighbor_id r.state)]
    by_cases hr : r.neighbor_id = id
    · have hfilter : (r :: rest).filter (fun n => decide (n.neighbor_id = id)) =
          r :: rest.filter (fun n => decide (n.neighbor_id = id)) := by
        simp [List.filter_cons, hr]
      cases hl : lastStateOf rest id with
      | none =>
        have hnil : (rest.filter (fun n => decide (n.neighbor_id = id))).map
            (fun n => n.state) = [] := by
          simpa [lastStateOf, List.getLast?_eq_none_iff] using hl
        have hsome : lastStateOf (r :: rest) id = some r.state := by
          simp [lastStateOf, hfilter, hnil]
        rw [hsome, hr]
        simp [lookupAL_upsert_self]
      | some st =>
        have hsome : lastStateOf (r :: rest) id = some st := by
          unfold lastStateOf at hl ⊢
          rw [hfilter, List.map_cons]
          cases hc : (rest.filter (fun n => decide (n.neighbor_id = id))).map
              (fun n => n.state) with
          | nil => rw [hc] at hl; simp at hl
          | cons y ys =>
            rw [hc] at hl
            rw [List.getLast?_cons_cons]
            exact hl
        rw [hsome]
    · have hfilter : (r :: rest).filter (fun n => decide (n.neighbor_id = id)) =
          rest.filter (fun n => decide (n.neighbor_id = id)) := by
        simp [List.filter_cons, hr]
      have : lastStateOf (r :: rest) id = lastStateOf rest id := by
        simp [lastStateOf, hfilter]
      rw [this]
      cases hl : lastStateOf rest id <;>
        simp [lookupAL_upsert_other m r.neighbor_id r.state id hr]

/-- C5: a neighbor present in both maps is classified problematic iff its live
state starts with neither `2` nor `FULL`; in particular `FULL/BDR` is healthy
and `DOWN` is not, regardless of the golden state token. -/
theorem c5_problematic_iff_unhealthy :
    (∀ (liveRows goldenRows : List OspfNeighbor) (id st : Str),
      lookupAL (buildMap liveRows) id = some st →
      id ∈ keysAL (buildMap goldenRows) →
      (id ∈ problematicOf (buildMap goldenRows) (buildMap liveRows) ↔
        healthyState st = false)) ∧
    healthyState ("FULL/BDR".data) = true ∧
    healthyState ("DOWN".data) = false := by
  refine ⟨?_, by decide, by decide⟩
  intro liveRows goldenRows id st hlk hg
  have hlive : id ∈ keysAL (buildMap liveRows) := lookupAL_mem_keys _ _ _ hlk
  have hnd : (keysAL (buildMap liveRows)).Nodup := nodup_keys_buildMap liveRows
  constructor
  · intro hprob
    rcases List.mem_append.mp hprob with hmiss | hunh
    · exfalso
      have := List.of_mem_filter hmiss
      simp [hlive] at this
    · obtain ⟨kv, hkv, hfst⟩ := List.mem_map.mp hunh
      have hmem := List.mem_of_mem_filter hkv
      have hcond := List.of_mem_filter hkv
      subst hfst
      have hlk2 := mem_lookupAL_of_nodup _ _ _ hnd hmem
      rw [hlk] at hlk2
      injection hlk2 with hval
      rw [hval]
      simp only [Bool.and_eq_true] at hcond
      simpa using hcond.2
  · intro hunh
    refine List.mem_append.mpr (Or.inr ?_)
    have hmem : (id, st) ∈ buildMap liveRows := lookupAL_mem _ _ _ hlk
    refine List.mem_map.mpr ⟨(id, st), List.mem_filter.mpr ⟨hmem, ?_⟩, rfl⟩
    simp [hg, hunh]

/-- C5 (witness): concrete tables — `10.0.0.1` is `DOWN` live and problematic;
the iff applies with its hypotheses discharged on explicit rows. -/
theorem c5_witness :
    ("10.0.0.1".data ∈ problematicOf
        (buildMap (parse_ospf_neighbors
          ("H\n10.0.0.1 1 default 1 FULL/DR 00:01:00 10.1.1.1 Ethernet0/0".data)))
        (buildMap (parse_ospf_neighbors
          ("H\n10.0.0.1 1 default 1 DOWN/- 00:01:00 10.1.1.1 Ethernet0/0".data))) ↔
      healthyState ("DOWN/-".data) = false) :=
  c5_problematic_iff_unhealthy.1
    (parse_ospf_neighbors
      ("H\n10.0.0.1 1 default 1 DOWN/- 00:01:00 10.1.1.1 Ethernet0/0".data))
    (parse_ospf_neighbors
      ("H\n10.0.0.1 1 default 1 FULL/DR 00:01:00 10.1.1.1 Ethernet0/0".data))
    ("10.0.0.1".data) ("DOWN/-".data) (by decide) (by decide)

/-- C6: a neighbor id present in the live map but not in the golden map is
reported as unexpected, is never in the problematic list, and the remediation
loop (which iterates exactly over the problematic list) never runs for it. -/
theorem c6_unexpected_never_remediated (liveRows goldenRows : List OspfNeighbor)
    (id : Str) (envs : Str → SessionEnv)
    (h : id ∈ unexpectedOf (buildMap goldenRows) (buildMap liveRows)) :
    id ∉ problematicOf (buildMap goldenRows) (buildMap liveRows) ∧
    ∀ e ∈ compare_ospf_neighbors_model envs liveRows goldenRows, e.1 ≠ id := by
  have hnotg : id ∉ keysAL (buildMap goldenRows) := by
    have := List.of_mem_filter h
    simpa using this
  have hnp : id ∉ problematicOf (buildMap goldenRows) (buildMap liveRows) := by
    intro hprob
    rcases List.mem_append.mp hprob with hmiss | hunh
    · exact hnotg (List.mem_of_mem_filter hmiss)
    · obtain ⟨kv, hkv, hfst⟩ := List.mem_map.mp hunh
      have hcond := List.of_mem_filter hkv
      subst hfst
      simp [Bool.and_eq_true] at hcond
      exact hnotg hcond.1
  refine ⟨hnp, ?_⟩
  intro e he
  obtain ⟨nid, hnid, rfl⟩ := List.mem_map.mp he
  intro hEq
  exact hnp (hEq ▸ hnid)

/-- C6 (witness): live has an extra `10.0.0.9: 2WAY/DROTHER` absent from
golden; it is unexpected, not problematic, and not remediated. -/
theorem c6_witness :
    ("10.0.0.9".data ∉ problematicOf
        (buildMap (parse_ospf_neighbors
          ("H\n10.0.0.1 1 default 1 FULL/DR 00:01:00 10.1.1.1 Ethernet0/0".data)))
        (buildMap (parse_ospf_neighbors
          ("H\n10.0.0.1 1 default 1 FULL/DR 00:01:00 10.1.1.1 Ethernet0/0\n10.0.0.9 1 default 1 2WAY/DROTHER 00:01:00 10.1.1.9 Ethernet0/1".data)))) ∧
    ∀ e ∈ compare_ospf_neighbors_model (fun _ => envC2)
        (parse_ospf_neighbors
          ("H\n10.0.0.1 1 default 1 FULL/DR 00:01:00 10.1.1.1 Ethernet0/0\n10.0.0.9 1 default 1 2WAY/DROTHER 00:01:00 10.1.1.9 Ethernet0/1".data))
        (parse_ospf_neighbors
          ("H\n10.0.0.1 1 default 1 FULL/DR 00:01:00 10.1.1.1 Ethernet0/0".data)),
      e.1 ≠ ("10.0.0.9".data) :=
  c6_unexpected_never_remediated
    (parse_ospf_neighbors
      ("H\n10.0.0.1 1 default 1 FULL/DR 00:01:00 10.1.1.1 Ethernet0/0\n10.0.0.9 1 default 1 2WAY/DROTHER 00:01:00 10.1.1.9 Ethernet0/1".data))
    (parse_ospf_neighbors
      ("H\n10.0.0.1 1 default 1 FULL/DR 00:01:00 10.1.1.1 Ethernet0/0".data))
    ("10.0.0.9".data) (fun _ => envC2) (by decide)

/-! ### Parser robustness (claim C4) -/

theorem parse_neighbors_foldl_filterMap (lines : List Str) :
    ∀ acc : List OspfNeighbor,
      lines.foldl
        (fun neighbors line =>
          let parts := pySplitWs line
          if parts.length ≥ 8 then
            neighbors ++ [{ neighbor_id := parts.getD 0 [], inst := parts.getD 1 [],
                            vrf := parts.getD 2 [], priority := parts.getD 3 [],
                            state := parts.getD 4 [], address := parts.getD 6 [],
                            intf := parts.getD 7 [] }]
          else neighbors)
        acc = acc ++ lines.filterMap neighborOfLine := by
  induction lines with
  | nil => intro acc; simp
  | cons l rest ih =>
    intro acc
    rw [List.foldl_cons, List.filterMap_cons]
    by_cases h : (pySplitWs l).length ≥ 8
    · simp only [if_pos h]
      rw [ih]
      simp [neighborOfLine, h]
    · simp only [if_neg h]
      rw [ih]
      simp [neighborOfLine, h]

/-- C4 (counterexample): on output whose first `Timer intervals configured`
line has fewer than four `", "`-separated fields, `parse_ospf_timers` raises
(IndexError) and returns nothing at all — the well-formed mismatched block
that follows is lost, instead of only the offending record being discarded. -/
theorem c4_counterexample :
    parse_ospf_timers c4BadTimersText = Except.error PyErr.indexError := by
  rfl

/-- C4 (amended): neighbor parsing discards rows with fewer than 8
whitespace-separated fields and keeps the rest; timer parsing, however,
raises on a malformed `Timer intervals configured` line, aborting the whole
parse — in `compare_ospf_config` the exception is caught by the surrounding
handler, which abandons the timer check (no fix is pushed and no further
session action is taken) rather than continuing with the remaining records. -/
theorem c4_discard_vs_raise :
    (∀ out : Str, parse_ospf_neighbors out =
      ((pyLines out).drop 1).filterMap neighborOfLine) ∧
    (∀ (cfgText timersText : Str) (e : PyErr),
      occursIn ("shutdown".data) cfgText = false →
      parse_ospf_timers timersText = Except.error e →
      compare_ospf_config cfgText timersText =
        [Action.sendCommand showRunOspfCmd, Action.sendCommand showTimersCmd]) := by
  constructor
  · intro out
    unfold parse_ospf_neighbors
    rw [parse_neighbors_foldl_filterMap]
    rfl
  · intro cfgText timersText e hshut hp
    unfold compare_ospf_config
    rw [if_neg (by simp [hshut]), hp]

/-- C4 (witness): the amended theorem applied to a concrete neighbor table
with one short row and to the concrete malformed timer text. -/
theorem c4_witness :
    parse_ospf_neighbors
        ("H\nshort row\n10.0.0.1 1 default 1 FULL/DR 00:01:00 10.1.1.1 Ethernet0/0".data) =
      (((pyLines
        ("H\nshort row\n10.0.0.1 1 default 1 FULL/DR 00:01:00 10.1.1.1 Ethernet0/0".data)).drop
          1).filterMap neighborOfLine) ∧
    compare_ospf_config ("router ospf 1".data) c4BadTimersText =
      [Action.sendCommand showRunOspfCmd, Action.sendCommand showTimersCmd] :=
  ⟨c4_discard_vs_raise.1
      ("H\nshort row\n10.0.0.1 1 default 1 FULL/DR 00:01:00 10.1.1.1 Ethernet0/0".data),
   c4_discard_vs_raise.2 ("router ospf 1".data) c4BadTimersText PyErr.indexError
      (by decide) (by rfl)⟩

/-! ### String lemmas for the timer-parser theorem (claim C7) -/

theorem splitAtPred_ne_nil (p : Char → Bool) (s : Str) : splitAtPred p s ≠ [] := by
  cases s with
  | nil => simp [splitAtPred]
  | cons c rest =>
    by_cases h : p c = true
    · simp [splitAtPred, h]
    · simp only [splitAtPred, if_neg h]
      cases splitAtPred p rest <;> simp

theorem splitAtPred_all_neg (p : Char → Bool) (s : Str)
    (h : ∀ c ∈ s, p c = false) : splitAtPred p s = [s] := by
  induction s with
  | nil => rfl
  | cons c rest ih =>
    have hc : p c = false := h c (by simp)
    rw [splitAtPred, if_neg (by simp [hc]), ih (fun x hx => h x (by simp [hx]))]

theorem splitAtPred_pos_cons (p : Char → Bool) (c : Char) (s : Str) (h : p c = true) :
    splitAtPred p (c :: s) = [] :: splitAtPred p s := by
  rw [splitAtPred, if_pos h]

theorem splitAtPred_append_neg (p : Char → Bool) (x s : Str)
    (hx : ∀ c ∈ x, p c = false) :
    splitAtPred p (x ++ s) =
      match splitAtPred p s with
      | [] => [x]
      | w :: ws => (x ++ w) :: ws := by
  induction x with
  | nil =>
    cases hs : splitAtPred p s with
    | nil => exact absurd hs (splitAtPred_ne_nil p s)
    | cons w ws => simp [hs]
  | cons a x' ih =>
    have ha : p a = false := hx a (by simp)
    rw [List.cons_append, splitAtPred, if_neg (by simp [ha]),
      ih (fun c hc => hx c (by simp [hc]))]
    cases hs : splitAtPred p s with
    | nil => exact absurd hs (splitAtPred_ne_nil p s)
    | cons w ws => simp

theorem isPrefixOf_nil_pat (x : Str) : ([] : Str).isPrefixOf x = true := by
  cases x <;> rfl

theorem isPrefixOf_cons_cons (c a : Char) (p z : Str) :
    (c :: p).isPrefixOf (a :: z) = ((c == a) && p.isPrefixOf z) := rfl

theorem isPrefixOf_append_self (p y : Str) : p.isPrefixOf (p ++ y) = true := by
  induction p with
  | nil => exact isPrefixOf_nil_pat y
  | cons c cs ih =>
    rw [List.cons_append, isPrefixOf_cons_cons, ih, beq_self_eq_true]
    rfl

theorem isPrefixOf_head_ne (c0 a : Char) (sr z : Str) (h : c0 ≠ a) :
    (c0 :: sr).isPrefixOf (a :: z) = false := by
  rw [isPrefixOf_cons_cons, beq_eq_false_iff_ne.mpr h]
  rfl

theorem isPrefixOf_extend (p : Str) : ∀ x y : Str, p.isPrefixOf x = true →
    p.isPrefixOf (x ++ y) = true := by
  induction p with
  | nil => intro x y _; exact isPrefixOf_nil_pat (x ++ y)
  | cons c cs ih =>
    intro x y h
    cases x with
    | nil => exact Bool.noConfusion h
    | cons a z =>
      rw [isPrefixOf_cons_cons, Bool.and_eq_true] at h
      rw [List.cons_append, isPrefixOf_cons_cons, h.1, ih z y h.2]
      rfl

theorem occursIn_nil_pat (s : Str) : occursIn [] s = true := by
  cases s <;> rfl

theorem occursIn_cons (p : Str) (a : Char) (z : Str) :
    occursIn p (a :: z) = (p.isPrefixOf (a :: z) || occursIn p z) := rfl

theorem occursIn_append_right (p A B : Str) (h : occursIn p B = true) :
    occursIn p (A ++ B) = true := by
  induction A with
  | nil => exact h
  | cons a A' ih =>
    rw [List.cons_append, occursIn_cons, ih, Bool.or_true]

theorem occursIn_append_left (p A B : Str) (h : occursIn p A = true) :
    occursIn p (A ++ B) = true := by
  induction A with
  | nil =>
    cases hp : p with
    | nil => exact occursIn_nil_pat B
    | cons c cs => rw [hp] at h; exact Bool.noConfusion h
  | cons a A' ih =>
    rw [occursIn_cons, Bool.or_eq_true] at h
    rw [List.cons_append, occursIn_cons]
    rcases h with h | h
    · have := isPrefixOf_extend p (a :: A') B h
      rw [List.cons_append] at this
      rw [this]
      rfl
    · rw [ih h, Bool.or_true]

theorem isPrefixOf_digit_barrier (D : Str) (hD : ∀ ch ∈ D, ch.isDigit = true)
    (hDne : D ≠ []) (p : Str) (hp : ∀ ch ∈ p, ch.isDigit = false) :
    ∀ A B : Str, p.isPrefixOf (A ++ D ++ B) = p.isPrefixOf A := by
  induction p with
  | nil =>
    intro A B
    rw [isPrefixOf_nil_pat, isPrefixOf_nil_pat]
  | cons pc p' ih =>
    intro A B
    cases A with
    | nil =>
      cases D with
      | nil => exact absurd rfl hDne
      | cons d D' =>
        have hne : pc ≠ d := by
          intro hEq
          have h1 := hp pc (by simp)
          have h2 := hD d (by simp)
          rw [hEq, h2] at h1
          exact Bool.noConfusion h1
        rw [show (([] : Str) ++ (d :: D') ++ B) = d :: (D' ++ B) by simp]
        rw [isPrefixOf_head_ne pc d p' (D' ++ B) hne]
        rfl
    | cons a A' =>
      rw [show ((a :: A') ++ D ++ B) = a :: (A' ++ D ++ B) by simp]
      rw [isPrefixOf_cons_cons, isPrefixOf_cons_cons,
        ih (fun ch hc => hp ch (by simp [hc])) A' B]

theorem occursIn_digit_run (pc : Char) (p' : Str)
    (hp : ∀ ch ∈ pc :: p', ch.isDigit = false) (D : Str)
    (hD : ∀ ch ∈ D, ch.isDigit = true) (B : Str) :
    occursIn (pc :: p') (D ++ B) = occursIn (pc :: p') B := by
  induction D with
  | nil => rfl
  | cons d D' ih =>
    have hne : pc ≠ d := by
      intro hEq
      have h1 := hp pc (by simp)
      have h2 := hD d (by simp)
      rw [hEq, h2] at h1
      exact Bool.noConfusion h1
    rw [List.cons_append, occursIn_cons,
      isPrefixOf_head_ne pc d p' (D' ++ B) hne,
      ih (fun ch hc => hD ch (by simp [hc]))]
    rfl

theorem occursIn_digit_barrier (p : Str) (hp : ∀ ch ∈ p, ch.isDigit = false)
    (D : Str) (hD : ∀ ch ∈ D, ch.isDigit = true) (hDne : D ≠ []) (A B : Str) :
    occursIn p (A ++ D ++ B) = (occursIn p A || occursIn p B) := by
  cases p with
  | nil =>
    rw [occursIn_nil_pat, occursIn_nil_pat]
    rfl
  | cons pc p' =>
    induction A with
    | nil =>
      rw [List.nil_append, occursIn_digit_run pc p' hp D hD B]
      rw [show occursIn (pc :: p') [] = false from rfl]
      rfl
    | cons a A' ihA =>
      rw [show ((a :: A') ++ D ++ B) = a :: (A' ++ D ++ B) by simp]
      rw [occursIn_cons, ihA]
      have hpre := isPrefixOf_digit_barrier D hD hDne (pc :: p') hp (a :: A') B
      rw [show ((a :: A') ++ D ++ B) = a :: (A' ++ D ++ B) by simp] at hpre
      rw [hpre, occursIn_cons, Bool.or_assoc]

theorem splitOnSepF_fuel_irrelevant (c0 : Char) (sr : Str) :
    ∀ (f1 : Nat) (s : Str) (f2 : Nat), s.length ≤ f1 → s.length ≤ f2 →
      splitOnSepF c0 sr f1 s = splitOnSepF c0 sr f2 s := by
  intro f1
  induction f1 with
  | zero =>
    intro s f2 h1 _
    have : s = [] := List.length_eq_zero.mp (Nat.le_zero.mp h1)
    subst this
    cases f2 <;> rfl
  | succ g1 ih =>
    intro s f2 h1 h2
    cases s with
    | nil => cases f2 <;> rfl
    | cons c rest =>
      cases f2 with
      | zero => simp at h2
      | succ g2 =>
        simp only [splitOnSepF]
        by_cases hpre : (c0 :: sr).isPrefixOf (c :: rest) = true
        · rw [if_pos hpre, if_pos hpre]
          have hlen : (rest.drop sr.length).length ≤ g1 := by
            simp only [List.length_drop]
            simp at h1
            omega
          have hlen2 : (rest.drop sr.length).length ≤ g2 := by
            simp only [List.length_drop]
            simp at h2
            omega
          rw [ih (rest.drop sr.length) g2 hlen hlen2]
        · rw [if_neg hpre, if_neg hpre]
          have hlen : rest.length ≤ g1 := by simp at h1; omega
          have hlen2 : rest.length ≤ g2 := by simp at h2; omega
          rw [ih rest g2 hlen hlen2]

theorem splitOnSepF_no_head (c0 : Char) (sr : Str) :
    ∀ (fuel : Nat) (s : Str), c0 ∉ s → splitOnSepF c0 sr fuel s = [s] := by
  intro fuel
  induction fuel with
  | zero => intro s _; cases s <;> rfl
  | succ g ih =>
    intro s hs
    cases s with
    | nil => rfl
    | cons c rest =>
      have hne : c0 ≠ c := fun hEq => hs (by simp [hEq])
      simp only [splitOnSepF]
      rw [if_neg (by simp [isPrefixOf_head_ne c0 c sr rest hne])]
      rw [ih rest (fun hc => hs (by simp [hc]))]

theorem splitOnSep_no_head (c0 : Char) (sr s : Str) (h : c0 ∉ s) :
    splitOnSep (c0 :: sr) s = [s] :=
  splitOnSepF_no_head c0 sr s.length s h

theorem splitOnSep_cons_sep (c0 : Char) (sr : Str) :
    ∀ (x y : Str), c0 ∉ x →
      splitOnSep (c0 :: sr) (x ++ (c0 :: sr) ++ y) =
        x :: splitOnSep (c0 :: sr) y := by
  intro x
  induction x with
  | nil =>
    intro y _
    have hs : ([] : Str) ++ (c0 :: sr) ++ y = c0 :: (sr ++ y) := by simp
    rw [hs]
    show splitOnSepF c0 sr (c0 :: (sr ++ y)).length (c0 :: (sr ++ y)) =
      [] :: splitOnSep (c0 :: sr) y
    have hlen : (c0 :: (sr ++ y)).length = (sr.length + y.length) + 1 := by simp
    rw [hlen]
    simp only [splitOnSepF]
    rw [if_pos (show (c0 :: sr).isPrefixOf (c0 :: (sr ++ y)) = true from
      isPrefixOf_append_self (c0 :: sr) y)]
    rw [List.drop_left sr y]
    rw [splitOnSepF_fuel_irrelevant c0 sr (sr.length + y.length) y y.length
      (by omega) (le_refl _)]
    rfl
  | cons a x' ih =>
    intro y hx
    have hne : c0 ≠ a := fun hEq => hx (by simp [hEq])
    have hs : (a :: x') ++ (c0 :: sr) ++ y = a :: (x' ++ (c0 :: sr) ++ y) := by simp
    rw [hs]
    show splitOnSepF c0 sr (a :: (x' ++ (c0 :: sr) ++ y)).length
        (a :: (x' ++ (c0 :: sr) ++ y)) = (a :: x') :: splitOnSep (c0 :: sr) y
    have hlen : (a :: (x' ++ (c0 :: sr) ++ y)).length =
        (x' ++ (c0 :: sr) ++ y).length + 1 := by simp
    rw [hlen]
    simp only [splitOnSepF]
    rw [if_neg (by simp [isPrefixOf_head_ne c0 a sr _ hne])]
    have ihh := ih y (fun hc => hx (by simp [hc]))
    rw [show splitOnSepF c0 sr (x' ++ (c0 :: sr) ++ y).length (x' ++ (c0 :: sr) ++ y) =
      splitOnSep (c0 :: sr) (x' ++ (c0 :: sr) ++ y) from rfl, ihh]

/-! ### Decimal printer lemmas (claim C7) -/

theorem digitChar_mem (d : Nat) : digitChar d ∈ ("0123456789".data : Str) := by
  unfold digitChar
  split_ifs <;> decide

theorem digit_str_facts : ∀ c ∈ ("0123456789".data : Str),
    Char.isDigit c = true ∧ isSpace c = false ∧ c ≠ '\n' ∧ c ≠ ',' ∧
      c ≠ '-' ∧ c ≠ '+' := by
  decide

theorem digitVal_digitChar (d : Nat) (h : d < 10) : digitVal (digitChar d) = d := by
  interval_cases d <;> decide

theorem natReprF_shape : ∀ n fuel acc, n < fuel → natReprF fuel n acc = natRepr n ++ acc := by
  intro n
  induction n using Nat.strong_induction_on with
  | _ n ih =>
    intro fuel acc hf
    cases fuel with
    | zero => omega
    | succ g =>
      by_cases h10 : n < 10
      · simp only [natReprF, if_pos h10, natRepr]
        rfl
      · have hd : n / 10 < n := Nat.div_lt_self (by omega) (by omega)
        have h1 : natReprF (g + 1) n acc = natReprF g (n / 10) (digitChar (n % 10) :: acc) := by
          simp only [natReprF, if_neg h10]
        have h2 : natRepr n = natRepr (n / 10) ++ [digitChar (n % 10)] := by
          rw [natRepr]
          have h3 : natReprF (n + 1) n [] = natReprF n (n / 10) (digitChar (n % 10) :: []) := by
            simp only [natReprF, if_neg h10]
          rw [h3, ih (n / 10) hd n _ (by omega)]
        rw [h1, ih (n / 10) hd g _ (by omega), h2, List.append_assoc]
        rfl

theorem natRepr_small (n : Nat) (h10 : n < 10) : natRepr n = [digitChar n] := by
  simp only [natRepr, natReprF, if_pos h10]

theorem natRepr_step (n : Nat) (h10 : ¬ n < 10) :
    natRepr n = natRepr (n / 10) ++ [digitChar (n % 10)] := by
  have hd : n / 10 < n := Nat.div_lt_self (by omega) (by omega)
  rw [natRepr]
  have h3 : natReprF (n + 1) n [] = natReprF n (n / 10) (digitChar (n % 10) :: []) := by
    simp only [natReprF, if_neg h10]
  rw [h3, natReprF_shape (n / 10) n _ (by omega)]

theorem natRepr_mem_digits (n : Nat) : ∀ c ∈ natRepr n, c ∈ ("0123456789".data : Str) := by
  induction n using Nat.strong_induction_on with
  | _ n ih =>
    by_cases h10 : n < 10
    · rw [natRepr_small n h10]
      intro c hc
      rw [List.mem_singleton] at hc
      exact hc ▸ digitChar_mem n
    · rw [natRepr_step n h10]
      intro c hc
      rcases List.mem_append.mp hc with hc | hc
      · exact ih (n / 10) (Nat.div_lt_self (by omega) (by omega)) c hc
      · rw [List.mem_singleton] at hc
        exact hc ▸ digitChar_mem (n % 10)

theorem natRepr_ne_nil (n : Nat) : natRepr n ≠ [] := by
  by_cases h10 : n < 10
  · rw [natRepr_small n h10]
    simp
  · rw [natRepr_step n h10]
    simp

theorem foldl_digits_natRepr (n : Nat) : ∀ v : Nat,
    (natRepr n).foldl (fun m c => m * 10 + digitVal c) v =
      v * 10 ^ (natRepr n).length + n := by
  induction n using Nat.strong_induction_on with
  | _ n ih =>
    intro v
    by_cases h10 : n < 10
    · rw [natRepr_small n h10]
      simp [List.foldl, digitVal_digitChar n h10]
    · rw [natRepr_step n h10]
      rw [List.foldl_append]
      rw [ih (n / 10) (Nat.div_lt_self (by omega) (by omega)) v]
      have hmod : digitVal (digitChar (n % 10)) = n % 10 :=
        digitVal_digitChar (n % 10) (Nat.mod_lt n (by omega))
      simp only [List.foldl, hmod, List.length_append, List.length_singleton]
      have hlen : 10 ^ ((natRepr (n / 10)).length + 1) =
          10 ^ (natRepr (n / 10)).length * 10 := by
        rw [Nat.pow_succ]
      rw [hlen]
      have : (v * 10 ^ (natRepr (n / 10)).length + n / 10) * 10 + n % 10 =
          v * (10 ^ (natRepr (n / 10)).length * 10) + (n / 10 * 10 + n % 10) := by
        ring
      rw [this]
      omega

theorem natRepr_all_digit (n : Nat) : (natRepr n).all Char.isDigit = true := by
  rw [List.all_eq_true]
  intro c hc
  exact (digit_str_facts c (natRepr_mem_digits n c hc)).1

theorem natRepr_isDigit (n : Nat) : ∀ c ∈ natRepr n, Char.isDigit c = true :=
  fun c hc => (digit_str_facts c (natRepr_mem_digits n c hc)).1

theorem natRepr_nonspace (n : Nat) : ∀ c ∈ natRepr n, isSpace c = false :=
  fun c hc => (digit_str_facts c (natRepr_mem_digits n c hc)).2.1

theorem natRepr_no_newline (n : Nat) : ∀ c ∈ natRepr n, c ≠ '\n' :=
  fun c hc => (digit_str_facts c (natRepr_mem_digits n c hc)).2.2.1

theorem natRepr_no_comma (n : Nat) : ∀ c ∈ natRepr n, c ≠ ',' :=
  fun c hc => (digit_str_facts c (natRepr_mem_digits n c hc)).2.2.2.1

theorem digitsToNat_natRepr (n : Nat) : digitsToNat (natRepr n) = some n := by
  unfold digitsToNat
  rw [if_pos ⟨natRepr_ne_nil n, natRepr_all_digit n⟩]
  rw [foldl_digits_natRepr n 0]
  simp

theorem dropWhile_all_neg (p : Char → Bool) (s : Str) (h : ∀ c ∈ s, p c = false) :
    s.dropWhile p = s := by
  cases s with
  | nil => rfl
  | cons a z =>
    rw [List.dropWhile_cons_of_neg]
    simp [h a (by simp)]

theorem pyStrip_all_nonspace (s : Str) (h : ∀ c ∈ s, isSpace c = false) :
    pyStrip s = s := by
  unfold pyStrip
  rw [dropWhile_all_neg _ _ h,
    dropWhile_all_neg _ _ (fun c hc => h c (List.mem_reverse.mp hc)),
    List.reverse_reverse]

theorem pyInt_natRepr (n : Nat) : pyInt (natRepr n) = some (n : Int) := by
  have hstrip : pyStrip (natRepr n) = natRepr n :=
    pyStrip_all_nonspace _ (natRepr_nonspace n)
  obtain ⟨c, ds, hc⟩ := List.exists_cons_of_ne_nil (natRepr_ne_nil n)
  have hfacts := digit_str_facts c (natRepr_mem_digits n c (by rw [hc]; simp))
  unfold pyInt
  rw [hstrip, hc]
  dsimp only
  rw [if_neg (by simpa using hfacts.2.2.2.2.1), if_neg (by simpa using hfacts.2.2.2.2.2)]
  rw [← hc, digitsToNat_natRepr n]
  rfl

/-! ### Timer-parser evaluation (claim C7) -/

theorem except_bind_ok {α β : Type} (a : α) (f : α → Except PyErr β) :
    (Except.ok a : Except PyErr α) >>= f = f a := rfl

theorem pySplitWs_word_digits (x D : Str) (hx : ∀ c ∈ x, isSpace c = false)
    (hxne : x ≠ []) (hD : ∀ c ∈ D, isSpace c = false) (hDne : D ≠ []) :
    pySplitWs (x ++ ' ' :: D) = [x, D] := by
  unfold pySplitWs
  rw [splitAtPred_append_neg isSpace x (' ' :: D) hx,
    splitAtPred_pos_cons isSpace ' ' D (by decide),
    splitAtPred_all_neg isSpace D hD]
  dsimp only
  rw [List.append_nil]
  simp [List.filter_cons, hxne, hDne]

theorem pyLines_two (L1 L2 : Str) (h1 : ∀ c ∈ L1, c ≠ '\n')
    (h2 : ∀ c ∈ L2, c ≠ '\n') (h2ne : L2 ≠ []) :
    pyLines (L1 ++ '\n' :: L2) = [L1, L2] := by
  unfold pyLines
  rw [splitAtPred_append_neg _ L1 _ (fun c hc => by simp [h1 c hc]),
    splitAtPred_pos_cons _ '\n' L2 (by decide),
    splitAtPred_all_neg _ L2 (fun c hc => by simp [h2 c hc])]
  dsimp only
  rw [List.append_nil]
  rw [show ([L1, L2] : List Str).getLast? = some L2 from rfl]
  rw [if_neg (by simp [h2ne])]

theorem timerLine_no_newline (h d r : Nat) : ∀ c ∈ timerLine h d r, c ≠ '\n' := by
  unfold timerLine
  intro c hc
  simp only [List.mem_append] at hc
  have f1 : ∀ x ∈ ("Timer intervals configured, Hello ".data : Str), x ≠ '\n' := by decide
  have f2 : ∀ x ∈ (", Dead ".data : Str), x ≠ '\n' := by decide
  have f3 : ∀ x ∈ (", Retransmit ".data : Str), x ≠ '\n' := by decide
  rcases hc with ((((hc | hc) | hc) | hc) | hc) | hc
  · exact f1 c hc
  · exact natRepr_no_newline h c hc
  · exact f2 c hc
  · exact natRepr_no_newline d c hc
  · exact f3 c hc
  · exact natRepr_no_newline r c hc

theorem timerLine_ne_nil (h d r : Nat) : timerLine h d r ≠ [] := by
  unfold timerLine
  intro hEq
  rw [List.append_eq_nil] at hEq
  exact natRepr_ne_nil r hEq.2

theorem splitOnSep_timerLine (h d r : Nat) :
    splitOnSep (", ".data) (timerLine h d r) =
      [("Timer intervals configured".data),
       ("Hello ".data) ++ natRepr h,
       ("Dead ".data) ++ natRepr d,
       ("Retransmit ".data) ++ natRepr r] := by
  have hsep : (", ".data : Str) = ',' :: [' '] := by decide
  have hshape : timerLine h d r =
      ("Timer intervals configured".data) ++ (',' :: [' ']) ++
        ((("Hello ".data) ++ natRepr h) ++ (',' :: [' ']) ++
          ((("Dead ".data) ++ natRepr d) ++ (',' :: [' ']) ++
            (("Retransmit ".data) ++ natRepr r))) := by
    unfold timerLine
    have e1 : ("Timer intervals configured, Hello ".data : Str) =
        ("Timer intervals configured".data) ++ (',' :: [' ']) ++ ("Hello ".data) := by decide
    have e2 : (", Dead ".data : Str) = (',' :: [' ']) ++ ("Dead ".data) := by decide
    have e3 : (", Retransmit ".data : Str) = (',' :: [' ']) ++ ("Retransmit ".data) := by decide
    rw [e1, e2, e3]
    simp [List.append_assoc]
  have hT0 : ',' ∉ ("Timer intervals configured".data : Str) := by decide
  have hx2 : ',' ∉ (("Hello ".data : Str) ++ natRepr h) := by
    intro hc
    rcases List.mem_append.mp hc with hc | hc
    · exact absurd hc (by decide)
    · exact natRepr_no_comma h ',' hc rfl
  have hx3 : ',' ∉ (("Dead ".data : Str) ++ natRepr d) := by
    intro hc
    rcases List.mem_append.mp hc with hc | hc
    · exact absurd hc (by decide)
    · exact natRepr_no_comma d ',' hc rfl
  have hx4 : ',' ∉ (("Retransmit ".data : Str) ++ natRepr r) := by
    intro hc
    rcases List.mem_append.mp hc with hc | hc
    · exact absurd hc (by decide)
    · exact natRepr_no_comma r ',' hc rfl
  rw [hsep, hshape,
    splitOnSep_cons_sep ',' [' '] _ _ hT0,
    splitOnSep_cons_sep ',' [' '] _ _ hx2,
    splitOnSep_cons_sep ',' [' '] _ _ hx3,
    splitOnSep_no_head ',' [' '] _ hx4]

theorem no_isup_timerLine (h d r : Nat) :
    occursIn ("is up".data) (timerLine h d r) = false := by
  have hp : ∀ ch ∈ ("is up".data : Str), ch.isDigit = false := by decide
  have hshape1 : timerLine h d r =
      ("Timer intervals configured, Hello ".data) ++ natRepr h ++
        ((", Dead ".data) ++ natRepr d ++ ((", Retransmit ".data) ++ natRepr r ++ [])) := by
    unfold timerLine
    simp [List.append_assoc]
  rw [hshape1,
    occursIn_digit_barrier _ hp _ (natRepr_isDigit h) (natRepr_ne_nil h) _ _,
    occursIn_digit_barrier _ hp _ (natRepr_isDigit d) (natRepr_ne_nil d) _ _,
    occursIn_digit_barrier _ hp _ (natRepr_isDigit r) (natRepr_ne_nil r) _ _]
  rw [show occursIn ("is up".data) ("Timer intervals configured, Hello ".data) = false by decide,
    show occursIn ("is up".data) (", Dead ".data) = false by decide,
    show occursIn ("is up".data) (", Retransmit ".data) = false by decide,
    show occursIn ("is up".data) ([] : Str) = false from rfl]
  rfl

theorem isup2_timerLine (h d r : Nat) :
    occursIn ("Timer intervals configured".data) (timerLine h d r) = true := by
  have hshape : timerLine h d r =
      ("Timer intervals configured, Hello ".data) ++
        (natRepr h ++ ((", Dead ".data) ++ (natRepr d ++ ((", Retransmit ".data) ++ natRepr r)))) := by
    unfold timerLine
    simp [List.append_assoc]
  rw [hshape]
  exact occursIn_append_left _ _ _ (by decide)

theorem secondTok_word_digits (x : Str) (D : Str) (hx : ∀ c ∈ x, isSpace c = false)
    (hxne : x ≠ []) (hD : ∀ c ∈ D, isSpace c = false) (hDne : D ≠ []) :
    secondTok (x ++ ' ' :: D) = Except.ok D := by
  unfold secondTok
  rw [pySplitWs_word_digits x D hx hxne hD hDne]
  rfl

theorem pyIntE_natRepr (n : Nat) : pyIntE (natRepr n) = Except.ok (n : Int) := by
  unfold pyIntE
  rw [pyInt_natRepr]

theorem secondTok_hello (h : Nat) :
    secondTok (("Hello ".data) ++ natRepr h) = Except.ok (natRepr h) := by
  rw [show ("Hello ".data : Str) = ("Hello".data) ++ [' '] by decide, List.append_assoc]
  exact secondTok_word_digits _ _ (by decide) (by decide) (natRepr_nonspace h)
    (natRepr_ne_nil h)

theorem secondTok_dead (d : Nat) :
    secondTok (("Dead ".data) ++ natRepr d) = Except.ok (natRepr d) := by
  rw [show ("Dead ".data : Str) = ("Dead".data) ++ [' '] by decide, List.append_assoc]
  exact secondTok_word_digits _ _ (by decide) (by decide) (natRepr_nonspace d)
    (natRepr_ne_nil d)

theorem secondTok_retransmit (r : Nat) :
    secondTok (("Retransmit ".data) ++ natRepr r) = Except.ok (natRepr r) := by
  rw [show ("Retransmit ".data : Str) = ("Retransmit".data) ++ [' '] by decide,
    List.append_assoc]
  exact secondTok_word_digits _ _ (by decide) (by decide) (natRepr_nonspace r)
    (natRepr_ne_nil r)

theorem timersStep_timer_line (E : Str) (acc : List OspfTimerFault) (h d r : Nat) :
    timersStep (some E, acc) (timerLine h d r) =
      if (h : Int) ≠ 10 ∨ (d : Int) ≠ 40 ∨ (r : Int) ≠ 5 then
        Except.ok (some E, acc ++ [⟨E, (h : Int), (d : Int), (r : Int)⟩])
      else Except.ok (some E, acc) := by
  unfold timersStep
  rw [if_neg (by rw [no_isup_timerLine h d r]; simp),
    if_pos (isup2_timerLine h d r)]
  rw [splitOnSep_timerLine h d r]
  dsimp only
  rw [show pyIndex [("Timer intervals configured".data),
      ("Hello ".data) ++ natRepr h, ("Dead ".data) ++ natRepr d,
      ("Retransmit ".data) ++ natRepr r] 1 = Except.ok (("Hello ".data) ++ natRepr h)
    from rfl]
  rw [except_bind_ok, secondTok_hello h, except_bind_ok, pyIntE_natRepr h, except_bind_ok]
  rw [show pyIndex [("Timer intervals configured".data),
      ("Hello ".data) ++ natRepr h, ("Dead ".data) ++ natRepr d,
      ("Retransmit ".data) ++ natRepr r] 2 = Except.ok (("Dead ".data) ++ natRepr d)
    from rfl]
  rw [except_bind_ok, secondTok_dead d, except_bind_ok, pyIntE_natRepr d, except_bind_ok]
  rw [show pyIndex [("Timer intervals configured".data),
      ("Hello ".data) ++ natRepr h, ("Dead ".data) ++ natRepr d,
      ("Retransmit ".data) ++ natRepr r] 3 = Except.ok (("Retransmit ".data) ++ natRepr r)
    from rfl]
  rw [except_bind_ok, secondTok_retransmit r, except_bind_ok, pyIntE_natRepr r,
    except_bind_ok]

/-- C7: on a canonical interface block reporting hello=`h`, dead=`d`,
retransmit=`r`, the timer parser emits a fault record iff at least one of the
three values differs from the defaults 10/40/5 — exactly 10/40/5 yields no
fault, and any other combination yields exactly the one fault entry for that
interface carrying the three parsed values. -/
theorem c7_timer_fault_iff_nondefault (h d r : Nat) :
    parse_ospf_timers (mkTimerBlock h d r) =
      Except.ok (if h = 10 ∧ d = 40 ∧ r = 5 then []
        else [⟨("Ethernet0/0".data), (h : Int), (d : Int), (r : Int)⟩]) := by
  unfold parse_ospf_timers
  have hlines : pyLines (mkTimerBlock h d r) =
      [("Ethernet0/0 is up".data), timerLine h d r] := by
    unfold mkTimerBlock
    exact pyLines_two _ _ (by decide) (timerLine_no_newline h d r) (timerLine_ne_nil h d r)
  rw [hlines]
  simp only [List.foldlM]
  rw [show timersStep (none, ([] : List OspfTimerFault)) ("Ethernet0/0 is up".data) =
    Except.ok (some ("Ethernet0/0".data), []) from rfl]
  rw [except_bind_ok]
  rw [timersStep_timer_line ("Ethernet0/0".data) [] h d r]
  by_cases hc : h = 10 ∧ d = 40 ∧ r = 5
  · rw [if_neg (by omega), if_pos hc]
    rfl
  · rw [if_pos (by omega), if_neg hc]
    rfl

end Troubleshooting
